import Mathlib

/-!
Verification of the document-analysis backend (upload / analyze / get pipeline).

The development shallowly embeds the TypeScript sources of the repository:

* `src/src/documents/documents.service.ts`  — `DocumentsService` (orchestrator)
* `src/src/documents/openrouter.service.ts` — `OpenRouterService` (LLM adapter)
* `src/unnamed/part_001`                    — `TextExtractionService`
* `src/src/documents/s3.service.ts`         — `S3Service`
* `src/src/documents/documents.controller.ts` — thin HTTP delegation layer

JavaScript strings are modelled as Lean `String` (lists of unicode scalars),
byte buffers as opaque `String` payloads, timestamps as `Nat`, and the
loosely-typed `Record<string, any>` metadata values as an inductive `Json`
type.  `JSON.stringify` / `JSON.parse` (runtime built-ins used by the service
for the metadata column) are modelled executably below; JSON numbers are
modelled as integers in canonical decimal form (float printing of the JS
runtime is outside the model) and JS objects are modelled as ordered
association lists (a JS object cannot hold duplicate keys, so lists with
duplicate keys do not correspond to any JS value).

External effects (the S3 client's network call, the pdf/docx parsing
libraries, the LLM HTTP call, database create/update failures) are modelled
as explicit oracle fields of environment records: each call site reads the
outcome the external system would have produced.  The database table and the
object store are explicit in-memory states threaded through the operations.
-/

/-- JSON values, as produced by the JS runtime's `JSON.parse`:
null, booleans, numbers (modelled as integers), strings, arrays,
and objects as ordered key/value lists. -/
inductive Json where
  | null : Json
  | bool (b : Bool) : Json
  | num (n : Int) : Json
  | str (s : String) : Json
  | arr (elems : List Json) : Json
  | obj (members : List (String × Json)) : Json
  deriving Repr

namespace JSON

/-- Decimal digit character for `n < 10`. -/
def digitChar (n : Nat) : Char := Char.ofNat (48 + n)

/-- Hexadecimal digit character (lower case) for `n < 16`. -/
def hexDigitChar (n : Nat) : Char :=
  if n < 10 then Char.ofNat (48 + n) else Char.ofNat (87 + n)

/-- Decimal digits of a natural number, most significant first
(no leading zeros, as emitted by `JSON.stringify`). -/
def natToChars (n : Nat) : List Char :=
  if _h : n < 10 then [digitChar n]
  else natToChars (n / 10) ++ [digitChar (n % 10)]
  decreasing_by exact Nat.div_lt_self (by omega) (by omega)

/-- Escaping of one character inside a JSON string literal, mirroring
`JSON.stringify`: quote, backslash and the named control escapes get
two-character escapes, remaining control characters get `\u00XX`. -/
def escapeChar (c : Char) : List Char :=
  if c = '"' then ['\\', '"']
  else if c = '\\' then ['\\', '\\']
  else if c = '\n' then ['\\', 'n']
  else if c = '\r' then ['\\', 'r']
  else if c = '\t' then ['\\', 't']
  else if c = '\x08' then ['\\', 'b']
  else if c = '\x0c' then ['\\', 'f']
  else if c.toNat < 32 then
    ['\\', 'u', '0', '0', hexDigitChar (c.toNat / 16), hexDigitChar (c.toNat % 16)]
  else [c]

mutual

/-- Characters of `JSON.stringify` applied to a value (no whitespace,
exactly as the JS built-in emits with no spacing argument). -/
def printJ : Json → List Char
  | .null => ['n', 'u', 'l', 'l']
  | .bool b => if b then ['t', 'r', 'u', 'e'] else ['f', 'a', 'l', 's', 'e']
  | .num n => if n < 0 then '-' :: natToChars n.natAbs else natToChars n.toNat
  | .str s => '"' :: (s.data.flatMap escapeChar ++ ['"'])
  | .arr es => '[' :: (printElems es ++ [']'])
  | .obj ms => '{' :: (printMembers ms ++ ['}'])

/-- Comma-separated printed array elements. -/
def printElems : List Json → List Char
  | [] => []
  | [x] => printJ x
  | x :: y :: xs => printJ x ++ ',' :: printElems (y :: xs)

/-- Comma-separated printed object members. -/
def printMembers : List (String × Json) → List Char
  | [] => []
  | [(k, v)] => printMember k v
  | (k, v) :: m :: ms => printMember k v ++ ',' :: printMembers (m :: ms)

/-- One printed object member, `"key":value`. -/
def printMember (k : String) (v : Json) : List Char :=
  '"' :: (k.data.flatMap escapeChar ++ ['"', ':'] ++ printJ v)

end

/-- The JS runtime's `JSON.stringify` on our `Json` model. -/
def stringify (j : Json) : String := String.mk (printJ j)

/-- JSON whitespace characters (`JSON.parse` skips them between tokens). -/
def isWs (c : Char) : Bool := c = ' ' || c = '\t' || c = '\n' || c = '\r'

/-- Numeric value of a hexadecimal digit character. -/
def hexVal (c : Char) : Option Nat :=
  if '0' ≤ c ∧ c ≤ '9' then some (c.toNat - 48)
  else if 'a' ≤ c ∧ c ≤ 'f' then some (c.toNat - 87)
  else if 'A' ≤ c ∧ c ≤ 'F' then some (c.toNat - 55)
  else none

/-- Unescaping of a two-character escape `\e` inside a JSON string literal. -/
def unescChar (e : Char) : Option Char :=
  if e = '"' then some '"'
  else if e = '\\' then some '\\'
  else if e = '/' then some '/'
  else if e = 'n' then some '\n'
  else if e = 'r' then some '\r'
  else if e = 't' then some '\t'
  else if e = 'b' then some '\x08'
  else if e = 'f' then some '\x0c'
  else none

/-- Body of a JSON string literal: consumes characters up to the closing
quote, resolving escapes, and returns the decoded characters together with
the input remaining after the closing quote. -/
def parseStrBody : List Char → Option (List Char × List Char)
  | [] => none
  | c :: r =>
    if c = '"' then some ([], r)
    else if c = '\\' then
      match r with
      | [] => none
      | e :: r2 =>
        if e = 'u' then
          match r2 with
          | h1 :: h2 :: h3 :: h4 :: r3 =>
            match hexVal h1, hexVal h2, hexVal h3, hexVal h4 with
            | some a, some b, some cHex, some d =>
              let n := ((a * 16 + b) * 16 + cHex) * 16 + d
              if n.isValidChar then
                (parseStrBody r3).map (fun p => (Char.ofNat n :: p.1, p.2))
              else none
            | _, _, _, _ => none
          | _ => none
        else
          match unescChar e with
          | some u => (parseStrBody r2).map (fun p => (u :: p.1, p.2))
          | none => none
    else (parseStrBody r).map (fun p => (c :: p.1, p.2))

/-- Value of a list of decimal digit characters, most significant first. -/
def digitsVal (ds : List Char) : Nat :=
  ds.foldl (fun a c => a * 10 + (c.toNat - 48)) 0

/-- Maximal-munch parse of a nonempty run of decimal digits. -/
def parseNat (cs : List Char) : Option (Nat × List Char) :=
  let ds := cs.takeWhile Char.isDigit
  if ds = [] then none else some (digitsVal ds, cs.dropWhile Char.isDigit)

mutual

/-- Fuel-indexed recursive-descent JSON value parser (the core of the
model of the JS runtime's `JSON.parse`).  Consumes exactly one value,
with leading whitespace, and returns the remaining input. -/
def parseV : Nat → List Char → Option (Json × List Char)
  | 0, _ => none
  | n + 1, cs =>
    match cs.dropWhile isWs with
    | [] => none
    | c :: r =>
      if c = 'n' then
        match r with
        | 'u' :: 'l' :: 'l' :: r2 => some (.null, r2)
        | _ => none
      else if c = 't' then
        match r with
        | 'r' :: 'u' :: 'e' :: r2 => some (.bool true, r2)
        | _ => none
      else if c = 'f' then
        match r with
        | 'a' :: 'l' :: 's' :: 'e' :: r2 => some (.bool false, r2)
        | _ => none
      else if c = '"' then
        (parseStrBody r).map (fun p => (.str (String.mk p.1), p.2))
      else if c = '[' then
        match r.dropWhile isWs with
        | [] => (parseElems n r).map (fun p => (.arr p.1, p.2))
        | c2 :: r2 =>
          if c2 = ']' then some (.arr [], r2)
          else (parseElems n r).map (fun p => (.arr p.1, p.2))
      else if c = '{' then
        match r.dropWhile isWs with
        | [] => (parseMembers n r).map (fun p => (.obj p.1, p.2))
        | c2 :: r2 =>
          if c2 = '}' then some (.obj [], r2)
          else (parseMembers n r).map (fun p => (.obj p.1, p.2))
      else if c = '-' then
        (parseNat r).map (fun p => (.num (-(p.1 : Int)), p.2))
      else if c.isDigit then
        (parseNat (c :: r)).map (fun p => (.num (p.1 : Int), p.2))
      else none

/-- Comma-separated JSON array elements up to the closing bracket. -/
def parseElems : Nat → List Char → Option (List Json × List Char)
  | 0, _ => none
  | n + 1, cs =>
    match parseV n cs with
    | none => none
    | some (v, r) =>
      match r.dropWhile isWs with
      | [] => none
      | c :: r2 =>
        if c = ',' then
          match parseElems n r2 with
          | none => none
          | some (vs, r3) => some (v :: vs, r3)
        else if c = ']' then some ([v], r2)
        else none

/-- Comma-separated JSON object members up to the closing brace. -/
def parseMembers : Nat → List Char → Option (List (String × Json) × List Char)
  | 0, _ => none
  | n + 1, cs =>
    match cs.dropWhile isWs with
    | [] => none
    | c :: r =>
      if c = '"' then
        match parseStrBody r with
        | none => none
        | some (kcs, r1) =>
          match r1.dropWhile isWs with
          | [] => none
          | c1 :: r2 =>
            if c1 = ':' then
              match parseV n r2 with
              | none => none
              | some (v, r3) =>
                match r3.dropWhile isWs with
                | [] => none
                | c2 :: r4 =>
                  if c2 = ',' then
                    match parseMembers n r4 with
                    | none => none
                    | some (ms, r5) => some ((String.mk kcs, v) :: ms, r5)
                  else if c2 = '}' then some ([(String.mk kcs, v)], r4)
                  else none
            else none
      else none

end

/-- The JS runtime's `JSON.parse` on our model: parse one value and
require only whitespace to remain.  A fuel of twice the input length
suffices for any input this grammar can accept, since every two units of
fuel spent consume at least one input character. -/
def parse (s : String) : Option Json :=
  match parseV (2 * s.data.length + 2) s.data with
  | some (v, r) => if r.dropWhile isWs = [] then some v else none
  | none => none

/-- Delimiter condition after a printed number: the next input character
is not a decimal digit (so maximal-munch digit scanning stops there). -/
def headNotDigit : List Char → Bool
  | [] => true
  | c :: _ => !c.isDigit

mutual

/-- Fuel sufficient for `parseV` to parse the printed form of a value. -/
def jfuel : Json → Nat
  | .null => 1
  | .bool _ => 1
  | .num _ => 1
  | .str _ => 1
  | .arr es => 1 + efuel es
  | .obj ms => 1 + mfuel ms

/-- Fuel sufficient for `parseElems` on printed array elements. -/
def efuel : List Json → Nat
  | [] => 1
  | x :: xs => 1 + jfuel x + efuel xs

/-- Fuel sufficient for `parseMembers` on printed object members. -/
def mfuel : List (String × Json) → Nat
  | [] => 1
  | (_, v) :: ms => 1 + jfuel v + mfuel ms

end

end JSON

/-! ## Data model and external-effect environments

The remaining definitions embed the service layer itself.  A JS `Error`
thrown by an external dependency is modelled by its message string; the
NestJS exception classes used by the services become the `AppError`
constructors below. -/

/-- Multer file descriptor (`Express.Multer.File`), with the fields the
services read: `originalname`, `mimetype`, `size`, `buffer`. -/
structure MFile where
  originalname : String
  mimetype : String
  size : Nat
  buffer : String
  deriving Repr, DecidableEq

/-- Persisted `Document` row (Prisma model): id, original name, MIME type,
size, storage key, nullable extracted text / summary / docType / metadata
(JSON-as-text), and timestamps. -/
structure Document where
  id : String
  originalName : String
  mimeType : String
  size : Nat
  s3Key : String
  extractedText : Option String
  summary : Option String
  docType : Option String
  metadata : Option String
  createdAt : Nat
  updatedAt : Nat
  deriving Repr, DecidableEq

/-- One object in the S3-compatible store: key, body bytes, content type. -/
structure S3Object where
  key : String
  body : String
  contentType : String
  deriving Repr, DecidableEq

/-- Shared mutable state: the Document table and the object store. -/
structure St where
  docs : List Document
  s3 : List S3Object
  deriving Repr, DecidableEq

/-- NestJS exceptions thrown by the services: `NotFoundException`,
`BadRequestException`, `InternalServerErrorException`. -/
inductive AppError where
  | notFound (msg : String)
  | badRequest (msg : String)
  | internal (msg : String)
  deriving Repr, DecidableEq

/-- The `error.message` read by every `catch` block. -/
def AppError.message : AppError → String
  | .notFound m => m
  | .badRequest m => m
  | .internal m => m

namespace Prisma

/-- `prisma.document.findUnique({ where: { id } })`. -/
def findUnique (st : St) (id : String) : Option Document :=
  st.docs.find? (fun d => d.id == id)

/-- `prisma.document.update({ where: { id }, data })`: replaces the fields
of every row matching the id (the id column is the unique primary key, so
at most one row matches in any reachable database state). -/
def update (st : St) (id : String) (f : Document → Document) : St :=
  { st with docs := st.docs.map (fun d => if d.id == id then f d else d) }

end Prisma

/-- Outcome oracle for the S3 client's `send`: `Except.error e` means the
underlying storage client threw an error whose message is `e`. -/
structure S3Env where
  uuid : String
  endpointUrl : String
  bucketName : String
  sendResult : Except String Unit
  deriving Repr

namespace S3Service

/-- Model of `S3Service.uploadFile`: generates the key
`` `${uuidv4()}-${file.originalname}` ``, sends a `PutObjectCommand` with the
file's buffer and content type, and returns `{ key, url }`.  On success the
object is added to the store; client failures propagate unmodified. -/
def uploadFile (env : S3Env) (file : MFile) (st : St) :
    Except String ((String × String) × St) :=
  let key := env.uuid ++ "-" ++ file.originalname
  match env.sendResult with
  | .error e => .error e
  | .ok _ =>
    let url := env.endpointUrl ++ "/" ++ env.bucketName ++ "/" ++ key
    .ok ((key, url),
      { st with
        s3 := st.s3 ++ [{ key := key, body := file.buffer,
                          contentType := file.mimetype }] })

end S3Service

/-- Outcome oracles for the two text-extraction libraries.  A successful
library call yields the raw text field (`data.text` / `result.value`),
which the adapter coalesces with `|| ''`; an absent field is `none`.
An `Except.error e` is a thrown error, interpolated into the adapter's
message by the source's template literal. -/
structure TextEnv where
  pdfRaw : Except String (Option String)
  docxRaw : Except String (Option String)
  deriving Repr

/-- JS `x || ''` on a possibly-absent string: the empty string is falsy,
so the coalescing is the identity on present strings and turns an absent
field into the empty string. -/
def jsOrEmpty : Option String → String
  | none => ""
  | some t => t

namespace TextExtractionService

/-- Model of `extractTextFromPDF`: `pdf-parse`, `data.text || ''`, failures
wrapped in `BadRequestException` with the original cause interpolated. -/
def extractTextFromPDF (env : TextEnv) (_buffer : String) :
    Except AppError String :=
  match env.pdfRaw with
  | .ok t => .ok (jsOrEmpty t)
  | .error e => .error (.badRequest ("Failed to extract text from PDF: " ++ e))

/-- Model of `extractTextFromDOCX`: `mammoth.extractRawText`,
`result.value || ''`, failures wrapped in `BadRequestException`. -/
def extractTextFromDOCX (env : TextEnv) (_buffer : String) :
    Except AppError String :=
  match env.docxRaw with
  | .ok t => .ok (jsOrEmpty t)
  | .error e => .error (.badRequest ("Failed to extract text from DOCX: " ++ e))

/-- Model of `TextExtractionService.extractText`: dispatches on the MIME
type and rejects any third type with a `BadRequestException`. -/
def extractText (env : TextEnv) (buffer : String) (mimeType : String) :
    Except AppError String :=
  if mimeType = "application/pdf" then
    extractTextFromPDF env buffer
  else if mimeType
      = "application/vnd.openxmlformats-officedocument.wordprocessingml.document" then
    extractTextFromDOCX env buffer
  else
    .error (.badRequest "Only PDF and DOCX files are supported")

end TextExtractionService

/-- JS truthiness on JSON values (the `x || default` test in the parser):
`null`, `false`, `0` and the empty string are falsy; arrays and objects
are always truthy. -/
def jsTruthy : Json → Bool
  | .null => false
  | .bool b => b
  | .num n => n != 0
  | .str s => s != ""
  | .arr _ => true
  | .obj _ => true

/-- JS property access `j[k]` on a parsed JSON value: a key lookup on an
object, `undefined` (here `none`) on anything else. -/
def jsGet (j : Json) (k : String) : Option Json :=
  match j with
  | .obj ms => (ms.find? (fun p => p.1 == k)).map (fun p => p.2)
  | _ => none

/-- JS `x || dflt`: the default replaces an absent or falsy value. -/
def jsOr (v : Option Json) (dflt : Json) : Json :=
  match v with
  | some x => if jsTruthy x then x else dflt
  | none => dflt

namespace OpenRouterService

/-- Model of `content.match(/\x7b[\s\S]*\x7d/)`: the regex finds at most one
match, running from the first opening brace to the last closing brace of
the text (the quantifier is greedy and `[\s\S]` matches every character);
there is no match when no closing brace follows an opening one. -/
def jsonMatch (content : String) : Option String :=
  let l := content.data.dropWhile (fun c => !(c == '{'))
  match l with
  | [] => none
  | _ :: _ =>
    let m := (l.reverse.dropWhile (fun c => !(c == '}'))).reverse
    if m = [] then none else some (String.mk m)

/-- Failure modes of `parseAnalysisResponse`; both are re-thrown by its
`catch` as an `InternalServerErrorException` whose message starts with
`Failed to parse LLM response: `. -/
inductive ParseErr where
  | noJson
  | badJson
  deriving Repr, DecidableEq

/-- Result triple of the LLM response parser.  The TS interface declares
strings, but the `||` defaulting returns whatever truthy JSON value the
model produced, so the fields are JSON values here. -/
structure LLMParsed where
  summary : Json
  docType : Json
  attributes : Json
  deriving Repr

/-- Model of `OpenRouterService.parseAnalysisResponse`: locate the first
brace-delimited substring, JSON-parse it, and read the three fields with
`||`-defaults (`'No summary available'`, `'unknown'`, `\x7b\x7d`). -/
def parseAnalysisResponse (content : String) : Except ParseErr LLMParsed :=
  match jsonMatch content with
  | none => .error .noJson
  | some s =>
    match JSON.parse s with
    | none => .error .badJson
    | some parsed =>
      .ok { summary := jsOr (jsGet parsed "summary") (.str "No summary available")
            docType := jsOr (jsGet parsed "docType") (.str "unknown")
            attributes := jsOr (jsGet parsed "attributes") (.obj []) }

end OpenRouterService

/-- Interface type of the LLM analysis adapter as consumed by the
Document Service (`LLMAnalysisResult`): summary, docType, attributes. -/
structure Analysis where
  summary : String
  docType : String
  attributes : Json
  deriving Repr

/-- External-effect oracles for one `uploadDocument` call: the S3 client,
the extraction libraries, the outcome of `prisma.document.create`
(`Except.error e` = the database threw an error with message `e`), the id
Prisma generates for the new row, and the clock. -/
structure UploadEnv where
  s3 : S3Env
  text : TextEnv
  createResult : Except String Unit
  newId : String
  now : Nat

/-- External-effect oracles for one `analyzeDocument` call: the outcome of
`openRouterService.analyzeDocument` (an `Except.error e` is the thrown
adapter error with message `e`), the outcome of `prisma.document.update`,
and the clock. -/
structure AnalyzeEnv where
  llmResult : Except String Analysis
  updateResult : Except String Unit
  now : Nat

/-- Response shape of a successful upload. -/
structure UploadResponse where
  id : String
  originalName : String
  mimeType : String
  size : Nat
  createdAt : Nat
  deriving Repr, DecidableEq

/-- Response shape of a successful analyze call. -/
structure AnalyzeResponse where
  id : String
  summary : Option String
  docType : Option String
  attributes : Json
  deriving Repr

/-- The `fileInfo` component of the get response. -/
structure FileInfo where
  id : String
  originalName : String
  mimeType : String
  size : Nat
  s3Key : String
  createdAt : Nat
  updatedAt : Nat
  deriving Repr, DecidableEq

/-- Composite response of `getDocument`. -/
structure GetResponse where
  fileInfo : FileInfo
  text : Option String
  summary : Option String
  docType : Option String
  metadata : Option Json
  deriving Repr

/-- JS falsiness of the nullable `extractedText` column: the guard
`!document.extractedText` fires when the column is NULL or the empty
string. -/
def jsFalsyText : Option String → Bool
  | none => true
  | some s => s == ""

/-- The two MIME types accepted by the upload validation. -/
def allowedMimes : List String :=
  ["application/pdf",
   "application/vnd.openxmlformats-officedocument.wordprocessingml.document"]

namespace DocumentsService

/-- Model of `DocumentsService.uploadDocument`.  Validation runs before
the `try` block (size first, then MIME type, first failure wins); inside
the `try`, the S3 upload, the text extraction and the Prisma create run in
order, and any error from them is re-thrown as
`` BadRequestException(`Upload failed: ${error.message}`) ``.  The pair
returned is (thrown-or-returned outcome, resulting state). -/
def uploadDocument (env : UploadEnv) (file : MFile) (st : St) :
    Except AppError UploadResponse × St :=
  if file.size > 5 * 1024 * 1024 then
    (.error (.badRequest "File size must not exceed 5MB"), st)
  else if ¬ (file.mimetype ∈ allowedMimes) then
    (.error (.badRequest "Only PDF and DOCX files are supported"), st)
  else
    match S3Service.uploadFile env.s3 file st with
    | .error e => (.error (.badRequest ("Upload failed: " ++ e)), st)
    | .ok ((key, _url), st1) =>
      match TextExtractionService.extractText env.text file.buffer file.mimetype with
      | .error e =>
        (.error (.badRequest ("Upload failed: " ++ e.message)), st1)
      | .ok extractedText =>
        match env.createResult with
        | .error e => (.error (.badRequest ("Upload failed: " ++ e)), st1)
        | .ok _ =>
          let doc : Document :=
            { id := env.newId
              originalName := file.originalname
              mimeType := file.mimetype
              size := file.size
              s3Key := key
              extractedText := some extractedText
              summary := none
              docType := none
              metadata := none
              createdAt := env.now
              updatedAt := env.now }
          (.ok { id := doc.id
                 originalName := doc.originalName
                 mimeType := doc.mimeType
                 size := doc.size
                 createdAt := doc.createdAt },
           { st1 with docs := st1.docs ++ [doc] })

/-- Model of `DocumentsService.analyzeDocument`.  Look up the row
(`NotFoundException` when absent), reject falsy extracted text before the
`try`, then call the LLM adapter and persist summary, docType and
`JSON.stringify(analysis.attributes)` in one update; any error of those
two steps is re-thrown as
`` BadRequestException(`Analysis failed: ${error.message}`) ``. -/
def analyzeDocument (env : AnalyzeEnv) (id : String) (st : St) :
    Except AppError AnalyzeResponse × St :=
  match Prisma.findUnique st id with
  | none => (.error (.notFound "Document not found"), st)
  | some document =>
    if jsFalsyText document.extractedText then
      (.error (.badRequest "No extracted text found for this document"), st)
    else
      match env.llmResult with
      | .error e => (.error (.badRequest ("Analysis failed: " ++ e)), st)
      | .ok analysis =>
        match env.updateResult with
        | .error e => (.error (.badRequest ("Analysis failed: " ++ e)), st)
        | .ok _ =>
          let upd : Document → Document := fun d =>
            { d with
              summary := some analysis.summary
              docType := some analysis.docType
              metadata := some (JSON.stringify analysis.attributes)
              updatedAt := env.now }
          let updated := upd document
          (.ok { id := updated.id
                 summary := updated.summary
                 docType := updated.docType
                 attributes := analysis.attributes },
           Prisma.update st id upd)

/-- Modelled from the spec: `DocumentsService.getDocument` is referenced
by the controller route `GET /documents/:id` and exercised by the unit
tests, but its body is absent from `documents.service.ts` as shipped, so
it is modelled from spec §4.3: look up the Document (`NotFoundException`
`'Document not found'` when the id resolves to no row), deserialize the
metadata text blob to a mapping when present and produce the explicit
absent value when it is unset (per the spec's invariant the stored blob is
always the serialization of an adapter output, so deserialization cannot
fail on reachable states), and return the composite of file descriptor,
extracted text, summary, docType and metadata mapping. -/
def getDocument (id : String) (st : St) :
    Except AppError GetResponse × St :=
  match Prisma.findUnique st id with
  | none => (.error (.notFound "Document not found"), st)
  | some d =>
    (.ok { fileInfo := { id := d.id
                         originalName := d.originalName
                         mimeType := d.mimeType
                         size := d.size
                         s3Key := d.s3Key
                         createdAt := d.createdAt
                         updatedAt := d.updatedAt }
           text := d.extractedText
           summary := d.summary
           docType := d.docType
           metadata := d.metadata.bind JSON.parse }, st)

end DocumentsService

namespace DocumentsService

/-- The generated storage key of an upload. -/
def genKey (env : UploadEnv) (file : MFile) : String :=
  env.s3.uuid ++ "-" ++ file.originalname

/-- The state after a successful S3 write of `file`. -/
def stAfterS3 (env : UploadEnv) (file : MFile) (st : St) : St :=
  { st with s3 := st.s3 ++ [{ key := genKey env file, body := file.buffer,
                              contentType := file.mimetype }] }

/-- The Document row created by a successful upload. -/
def createdDoc (env : UploadEnv) (file : MFile) (text : String) : Document :=
  { id := env.newId
    originalName := file.originalname
    mimeType := file.mimetype
    size := file.size
    s3Key := genKey env file
    extractedText := some text
    summary := none
    docType := none
    metadata := none
    createdAt := env.now
    updatedAt := env.now }

def analyzeUpd (a : Analysis) (now : Nat) : Document → Document := fun d =>
  { d with
    summary := some a.summary
    docType := some a.docType
    metadata := some (JSON.stringify a.attributes)
    updatedAt := now }


end DocumentsService

inductive Reach (avoid : String) : St → St → Prop where
  | refl (st : St) : Reach avoid st st
  | upload (st st' : St) (env : UploadEnv) (file : MFile) :
      Reach avoid st st' →
      Reach avoid st (DocumentsService.uploadDocument env file st').2
  | analyze (st st' : St) (env : AnalyzeEnv) (j : String) :
      Reach avoid st st' → j ≠ avoid →
      Reach avoid st (DocumentsService.analyzeDocument env j st').2
  | getDoc (st st' : St) (j : String) :
      Reach avoid st st' →
      Reach avoid st (DocumentsService.getDocument j st').2


/-! ## Concrete fixtures used by the witness corollaries -/

/-- A small valid PDF upload. -/
def wFile : MFile :=
  { originalname := "test.pdf", mimetype := "application/pdf",
    size := 1024, buffer := "PDF" }

/-- An oversized PNG upload (6 MiB). -/
def wFileBigPng : MFile :=
  { originalname := "big.png", mimetype := "image/png",
    size := 6291456, buffer := "IMG" }

/-- A small PNG upload. -/
def wFilePng : MFile :=
  { originalname := "img.png", mimetype := "image/png",
    size := 1024, buffer := "IMG" }

/-- An environment in which every external call succeeds. -/
def wUploadEnv : UploadEnv :=
  { s3 := { uuid := "u1", endpointUrl := "http://localhost:9000",
            bucketName := "documents", sendResult := .ok () }
    text := { pdfRaw := .ok (some "Full text here"), docxRaw := .ok none }
    createResult := .ok ()
    newId := "doc-1"
    now := 100 }

/-- An environment whose S3 client fails. -/
def wUploadEnvS3Fail : UploadEnv :=
  { wUploadEnv with
    s3 := { uuid := "u1", endpointUrl := "http://localhost:9000",
            bucketName := "documents", sendResult := .error "S3 error" } }

/-- An environment whose database create fails after a successful S3 write. -/
def wUploadEnvCreateFail : UploadEnv :=
  { wUploadEnv with createResult := .error "DB down" }

/-- A stored document with extracted text and no analysis yet. -/
def wDoc : Document :=
  { id := "doc-1", originalName := "test.pdf",
    mimeType := "application/pdf", size := 1024, s3Key := "u1-test.pdf",
    extractedText := some "Full text here", summary := none, docType := none,
    metadata := none, createdAt := 100, updatedAt := 100 }

/-- A one-document state. -/
def wSt : St :=
  { docs := [wDoc],
    s3 := [{ key := "u1-test.pdf", body := "PDF",
             contentType := "application/pdf" }] }

/-- A concrete adapter result. -/
def wAnalysis : Analysis :=
  { summary := "AI summary", docType := "Invoice",
    attributes := .obj [("keywords", .arr [.str "bill", .str "2025"])] }

/-- An analyze environment in which every external call succeeds. -/
def wAnalyzeEnv : AnalyzeEnv :=
  { llmResult := .ok wAnalysis, updateResult := .ok (), now := 200 }

/-- The upload response of `wUploadEnv`/`wFile` on the empty state. -/
def wRespUp : UploadResponse :=
  { id := "doc-1", originalName := "test.pdf",
    mimeType := "application/pdf", size := 1024, createdAt := 100 }

/-- The state after that successful upload. -/
def wSt1 : St := (DocumentsService.uploadDocument wUploadEnv wFile ⟨[], []⟩).2


/-! ## Properties of the JSON model -/

namespace JSON

theorem takeWhile_append_all {p : Char → Bool} {l r : List Char}
    (h : ∀ c ∈ l, p c = true) :
    (l ++ r).takeWhile p = l ++ r.takeWhile p := by
  induction l with
  | nil => simp
  | cons c t ih =>
    simp only [List.cons_append, List.takeWhile_cons, h c (by simp), if_pos]
    rw [ih (fun x hx => h x (by simp [hx]))]

theorem dropWhile_append_all {p : Char → Bool} {l r : List Char}
    (h : ∀ c ∈ l, p c = true) :
    (l ++ r).dropWhile p = r.dropWhile p := by
  induction l with
  | nil => simp
  | cons c t ih =>
    simp only [List.cons_append, List.dropWhile_cons, h c (by simp), if_pos]
    exact ih (fun x hx => h x (by simp [hx]))

theorem charOfNat_toNat {c : Char} (h : c.toNat < 55296) :
    Char.ofNat c.toNat = c := by
  have hv : c.toNat.isValidChar := Or.inl h
  unfold Char.ofNat
  rw [dif_pos hv]
  exact Char.eq_of_val_eq rfl

theorem digitChar_isDigit {n : Nat} (h : n < 10) :
    (digitChar n).isDigit = true := by
  interval_cases n <;> decide

theorem digitChar_toNat {n : Nat} (h : n < 10) :
    (digitChar n).toNat = 48 + n := by
  interval_cases n <;> decide

theorem hexVal_hexDigitChar {n : Nat} (h : n < 16) :
    hexVal (hexDigitChar n) = some n := by
  interval_cases n <;> decide

theorem natToChars_ne_nil (n : Nat) : natToChars n ≠ [] := by
  unfold natToChars
  split <;> simp

theorem natToChars_digits (n : Nat) : ∀ c ∈ natToChars n, c.isDigit = true := by
  induction n using Nat.strong_induction_on with
  | _ n ih =>
    unfold natToChars
    split
    · next h =>
      intro c hc
      simp only [List.mem_singleton] at hc
      subst hc
      exact digitChar_isDigit h
    · next h =>
      intro c hc
      rw [List.mem_append] at hc
      rcases hc with hc | hc
      · exact ih (n / 10) (Nat.div_lt_self (by omega) (by omega)) c hc
      · simp only [List.mem_singleton] at hc
        subst hc
        exact digitChar_isDigit (Nat.mod_lt _ (by omega))

theorem foldl_natToChars (n : Nat) : ∀ acc : Nat,
    (natToChars n).foldl (fun a c => a * 10 + (c.toNat - 48)) acc
      = acc * 10 ^ (natToChars n).length + n := by
  induction n using Nat.strong_induction_on with
  | _ n ih =>
    intro acc
    unfold natToChars
    split
    · next h =>
      simp only [List.foldl_cons, List.foldl_nil, List.length_singleton,
        pow_one, digitChar_toNat h]
      omega
    · next h =>
      rw [List.foldl_append, List.length_append,
        ih (n / 10) (Nat.div_lt_self (by omega) (by omega)) acc]
      simp only [List.foldl_cons, List.foldl_nil, List.length_singleton,
        digitChar_toNat (Nat.mod_lt n (by omega))]
      rw [pow_succ]
      have hdm : n / 10 * 10 + n % 10 = n := by omega
      have h48 : 48 + n % 10 - 48 = n % 10 := by omega
      rw [h48]
      ring_nf
      omega

theorem digitsVal_natToChars (n : Nat) : digitsVal (natToChars n) = n := by
  unfold digitsVal
  rw [foldl_natToChars n 0]
  omega

theorem parseNat_print (n : Nat) (rest : List Char)
    (h : headNotDigit rest = true) :
    parseNat (natToChars n ++ rest) = some (n, rest) := by
  have hall := natToChars_digits n
  have htk : (natToChars n ++ rest).takeWhile Char.isDigit = natToChars n := by
    rw [takeWhile_append_all hall]
    cases rest with
    | nil => simp
    | cons c r =>
      unfold headNotDigit at h
      simp only [Bool.not_eq_eq_eq_not, Bool.not_true] at h
      simp [List.takeWhile_cons, h]
  have hdp : (natToChars n ++ rest).dropWhile Char.isDigit = rest := by
    rw [dropWhile_append_all hall]
    cases rest with
    | nil => simp
    | cons c r =>
      unfold headNotDigit at h
      simp only [Bool.not_eq_eq_eq_not, Bool.not_true] at h
      simp [List.dropWhile_cons, h]
  unfold parseNat
  simp only [htk, hdp, digitsVal_natToChars]
  rw [if_neg (natToChars_ne_nil n)]

theorem parseStrBody_quote (r : List Char) :
    parseStrBody ('"' :: r) = some ([], r) := by
  rw [parseStrBody.eq_def]
  dsimp only
  rw [if_pos rfl]

theorem parseStrBody_other {c : Char} (r : List Char)
    (h1 : ¬ c = '"') (h2 : ¬ c = '\\') :
    parseStrBody (c :: r) = (parseStrBody r).map (fun p => (c :: p.1, p.2)) := by
  rw [parseStrBody.eq_def]
  dsimp only
  rw [if_neg h1, if_neg h2]

theorem parseStrBody_esc {e u : Char} (r : List Char)
    (he : ¬ e = 'u') (hu : unescChar e = some u) :
    parseStrBody ('\\' :: e :: r) = (parseStrBody r).map (fun p => (u :: p.1, p.2)) := by
  rw [parseStrBody.eq_def]
  dsimp only
  rw [if_neg (by decide), if_pos rfl, if_neg he, hu]

theorem parseStrBody_u {c3 c4 : Char} {a b : Nat} (r : List Char)
    (h3 : hexVal c3 = some a) (h4 : hexVal c4 = some b)
    (hval : (a * 16 + b).isValidChar) :
    parseStrBody ('\\' :: 'u' :: '0' :: '0' :: c3 :: c4 :: r)
      = (parseStrBody r).map (fun p => (Char.ofNat (a * 16 + b) :: p.1, p.2)) := by
  rw [parseStrBody.eq_def]
  dsimp only
  rw [if_neg (by decide), if_pos rfl, if_pos rfl]
  have h0 : hexVal '0' = some 0 := by decide
  rw [h0, h3, h4]
  dsimp only
  have hn : ((0 * 16 + 0) * 16 + a) * 16 + b = a * 16 + b := by omega
  rw [hn, if_pos hval]

theorem parseStrBody_escape (l rest : List Char) :
    parseStrBody (l.flatMap escapeChar ++ '"' :: rest) = some (l, rest) := by
  induction l with
  | nil =>
    rw [List.flatMap_nil, List.nil_append, parseStrBody_quote]
  | cons c t ih =>
    rw [List.flatMap_cons, List.append_assoc]
    by_cases h1 : c = '"'
    · subst h1
      rw [show escapeChar '"' = ['\\', '"'] from rfl, List.cons_append,
        List.cons_append, List.nil_append,
        parseStrBody_esc _ (by decide) (by decide : unescChar '"' = some '"'), ih]
      rfl
    by_cases h2 : c = '\\'
    · subst h2
      rw [show escapeChar '\\' = ['\\', '\\'] from rfl, List.cons_append,
        List.cons_append, List.nil_append,
        parseStrBody_esc _ (by decide) (by decide : unescChar '\\' = some '\\'), ih]
      rfl
    by_cases h3 : c = '\n'
    · subst h3
      rw [show escapeChar '\n' = ['\\', 'n'] from rfl, List.cons_append,
        List.cons_append, List.nil_append,
        parseStrBody_esc _ (by decide) (by decide : unescChar 'n' = some '\n'), ih]
      rfl
    by_cases h4 : c = '\r'
    · subst h4
      rw [show escapeChar '\r' = ['\\', 'r'] from rfl, List.cons_append,
        List.cons_append, List.nil_append,
        parseStrBody_esc _ (by decide) (by decide : unescChar 'r' = some '\r'), ih]
      rfl
    by_cases h5 : c = '\t'
    · subst h5
      rw [show escapeChar '\t' = ['\\', 't'] from rfl, List.cons_append,
        List.cons_append, List.nil_append,
        parseStrBody_esc _ (by decide) (by decide : unescChar 't' = some '\t'), ih]
      rfl
    by_cases h6 : c = '\x08'
    · subst h6
      rw [show escapeChar '\x08' = ['\\', 'b'] from rfl, List.cons_append,
        List.cons_append, List.nil_append,
        parseStrBody_esc _ (by decide) (by decide : unescChar 'b' = some '\x08'), ih]
      rfl
    by_cases h7 : c = '\x0c'
    · subst h7
      rw [show escapeChar '\x0c' = ['\\', 'f'] from rfl, List.cons_append,
        List.cons_append, List.nil_append,
        parseStrBody_esc _ (by decide) (by decide : unescChar 'f' = some '\x0c'), ih]
      rfl
    by_cases h8 : c.toNat < 32
    · have hesc : escapeChar c
          = ['\\', 'u', '0', '0', hexDigitChar (c.toNat / 16), hexDigitChar (c.toNat % 16)] := by
        unfold escapeChar
        rw [if_neg h1, if_neg h2, if_neg h3, if_neg h4, if_neg h5, if_neg h6,
          if_neg h7, if_pos h8]
      have hhi : c.toNat / 16 < 16 := by omega
      have hlo : c.toNat % 16 < 16 := by omega
      rw [hesc, List.cons_append, List.cons_append, List.cons_append,
        List.cons_append, List.cons_append, List.cons_append, List.nil_append,
        parseStrBody_u _ (hexVal_hexDigitChar hhi) (hexVal_hexDigitChar hlo)
          (Or.inl (by omega)), ih]
      have hc : c.toNat / 16 * 16 + c.toNat % 16 = c.toNat := by omega
      rw [hc, charOfNat_toNat (by omega)]
      rfl
    · have hesc : escapeChar c = [c] := by
        unfold escapeChar
        rw [if_neg h1, if_neg h2, if_neg h3, if_neg h4, if_neg h5, if_neg h6,
          if_neg h7, if_neg h8]
      rw [hesc, List.cons_append, List.nil_append,
        parseStrBody_other _ h1 h2, ih]
      rfl

theorem digit_facts {c : Char} (h : c.isDigit = true) :
    (¬ c = 'n') ∧ (¬ c = 't') ∧ (¬ c = 'f') ∧ (¬ c = '"') ∧ (¬ c = '[') ∧
    (¬ c = '{') ∧ (¬ c = '-') ∧ isWs c = false ∧ (¬ c = ']') ∧ (¬ c = '}') ∧
    (¬ c = ',') := by
  refine ⟨?_, ?_, ?_, ?_, ?_, ?_, ?_, ?_, ?_, ?_, ?_⟩
  case refine_8 =>
    cases hw : isWs c with
    | false => rfl
    | true =>
      exfalso
      unfold isWs at hw
      simp only [Bool.or_eq_true, decide_eq_true_eq] at hw
      rcases hw with ((hc | hc) | hc) | hc <;>
        (subst hc; exact absurd h (by decide))
  all_goals intro hc; subst hc; exact absurd h (by decide)

theorem natToChars_cons (m : Nat) :
    ∃ c l, natToChars m = c :: l ∧ c.isDigit = true := by
  cases h : natToChars m with
  | nil => exact absurd h (natToChars_ne_nil m)
  | cons c l =>
    exact ⟨c, l, rfl, natToChars_digits m c (h ▸ List.mem_cons_self c l)⟩

theorem printJ_head (v : Json) :
    ∃ c l, printJ v = c :: l ∧ isWs c = false ∧ ¬ c = ']' := by
  cases v with
  | null => exact ⟨'n', ['u', 'l', 'l'], by simp [printJ], by decide, by decide⟩
  | bool b =>
    cases b with
    | false =>
      exact ⟨'f', ['a', 'l', 's', 'e'], by simp [printJ], by decide, by decide⟩
    | true =>
      exact ⟨'t', ['r', 'u', 'e'], by simp [printJ], by decide, by decide⟩
  | num n =>
    by_cases hn : n < 0
    · exact ⟨'-', natToChars n.natAbs, by simp [printJ, hn], by decide, by decide⟩
    · obtain ⟨c, l, hcl, hd⟩ := natToChars_cons n.toNat
      refine ⟨c, l, ?_, (digit_facts hd).2.2.2.2.2.2.2.1,
        (digit_facts hd).2.2.2.2.2.2.2.2.1⟩
      simp [printJ, hn, hcl]
  | str s =>
    exact ⟨'"', s.data.flatMap escapeChar ++ ['"'], by simp [printJ],
      by decide, by decide⟩
  | arr es =>
    exact ⟨'[', printElems es ++ [']'], by simp [printJ], by decide, by decide⟩
  | obj ms =>
    exact ⟨'{', printMembers ms ++ ['}'], by simp [printJ], by decide, by decide⟩

theorem dropWhile_cons_not_ws {c : Char} (r : List Char) (h : isWs c = false) :
    (c :: r).dropWhile isWs = c :: r := by
  simp [List.dropWhile_cons, h]

theorem parseV_null (n : Nat) (r : List Char) :
    parseV (n + 1) ('n' :: 'u' :: 'l' :: 'l' :: r) = some (.null, r) := by
  rw [parseV, dropWhile_cons_not_ws _ (by decide)]
  simp

theorem parseV_true (n : Nat) (r : List Char) :
    parseV (n + 1) ('t' :: 'r' :: 'u' :: 'e' :: r) = some (.bool true, r) := by
  rw [parseV, dropWhile_cons_not_ws _ (by decide)]
  simp

theorem parseV_false (n : Nat) (r : List Char) :
    parseV (n + 1) ('f' :: 'a' :: 'l' :: 's' :: 'e' :: r)
      = some (.bool false, r) := by
  rw [parseV, dropWhile_cons_not_ws _ (by decide)]
  simp

theorem parseV_str (n : Nat) (r : List Char) :
    parseV (n + 1) ('"' :: r)
      = (parseStrBody r).map (fun p => (Json.str (String.mk p.1), p.2)) := by
  rw [parseV, dropWhile_cons_not_ws _ (by decide)]
  simp

theorem parseV_minus (n : Nat) (r : List Char) :
    parseV (n + 1) ('-' :: r)
      = (parseNat r).map (fun p => (Json.num (-(p.1 : Int)), p.2)) := by
  rw [parseV, dropWhile_cons_not_ws _ (by decide)]
  simp

theorem parseV_digit (n : Nat) {c : Char} (r : List Char) (h : c.isDigit = true) :
    parseV (n + 1) (c :: r)
      = (parseNat (c :: r)).map (fun p => (Json.num (p.1 : Int), p.2)) := by
  obtain ⟨hn, ht, hf, hq, hlb, hlc, hm, hws, _, _, _⟩ := digit_facts h
  rw [parseV, dropWhile_cons_not_ws _ hws]
  dsimp only
  rw [if_neg hn, if_neg ht, if_neg hf, if_neg hq, if_neg hlb, if_neg hlc,
    if_neg hm, if_pos h]

theorem parseV_lbrack (n : Nat) (r : List Char) :
    parseV (n + 1) ('[' :: r)
      = (match r.dropWhile isWs with
         | [] => (parseElems n r).map (fun p => (Json.arr p.1, p.2))
         | c2 :: r2 =>
           if c2 = ']' then some (Json.arr [], r2)
           else (parseElems n r).map (fun p => (Json.arr p.1, p.2))) := by
  rw [parseV, dropWhile_cons_not_ws _ (by decide)]
  simp

theorem parseV_lbrace (n : Nat) (r : List Char) :
    parseV (n + 1) ('{' :: r)
      = (match r.dropWhile isWs with
         | [] => (parseMembers n r).map (fun p => (Json.obj p.1, p.2))
         | c2 :: r2 =>
           if c2 = '}' then some (Json.obj [], r2)
           else (parseMembers n r).map (fun p => (Json.obj p.1, p.2))) := by
  rw [parseV, dropWhile_cons_not_ws _ (by decide)]
  simp

theorem jfuel_pos (v : Json) : 1 ≤ jfuel v := by
  cases v <;> simp [jfuel]

theorem printElems_cons_eq (x : Json) (xs : List Json) :
    ∃ t, printElems (x :: xs) = printJ x ++ t := by
  cases xs with
  | nil => exact ⟨[], by simp [printElems]⟩
  | cons y ys => exact ⟨',' :: printElems (y :: ys), by simp [printElems]⟩

theorem printMembers_cons_head (k : String) (v : Json)
    (ms : List (String × Json)) :
    ∃ t, printMembers ((k, v) :: ms) = '"' :: t := by
  cases ms with
  | nil =>
    exact ⟨k.data.flatMap escapeChar ++ ['"', ':'] ++ printJ v,
      by simp [printMembers, printMember]⟩
  | cons p tl =>
    exact ⟨(k.data.flatMap escapeChar ++ ['"', ':'] ++ printJ v)
        ++ ',' :: printMembers (p :: tl),
      by simp [printMembers, printMember]⟩

mutual

theorem parseV_print (v : Json) (n : Nat) (rest : List Char)
    (hn : jfuel v ≤ n) (hrest : headNotDigit rest = true) :
    parseV n (printJ v ++ rest) = some (v, rest) := by
  cases n with
  | zero => exact absurd hn (by have := jfuel_pos v; omega)
  | succ m =>
    cases v with
    | null =>
      rw [show printJ Json.null ++ rest = 'n' :: 'u' :: 'l' :: 'l' :: rest by
        simp [printJ]]
      exact parseV_null m rest
    | bool b =>
      cases b with
      | true =>
        rw [show printJ (Json.bool true) ++ rest = 't' :: 'r' :: 'u' :: 'e' :: rest by
          simp [printJ]]
        exact parseV_true m rest
      | false =>
        rw [show printJ (Json.bool false) ++ rest
            = 'f' :: 'a' :: 'l' :: 's' :: 'e' :: rest by simp [printJ]]
        exact parseV_false m rest
    | num k =>
      by_cases hk : k < 0
      · rw [show printJ (Json.num k) ++ rest = '-' :: (natToChars k.natAbs ++ rest) by
          simp [printJ, hk]]
        rw [parseV_minus, parseNat_print _ _ hrest]
        show some (Json.num (-(k.natAbs : Int)), rest) = some (Json.num k, rest)
        rw [show (-(k.natAbs : Int)) = k by omega]
      · obtain ⟨c, l, hcl, hd⟩ := natToChars_cons k.toNat
        rw [show printJ (Json.num k) ++ rest = c :: (l ++ rest) by
          simp [printJ, hk, hcl]]
        rw [parseV_digit m _ hd,
          show c :: (l ++ rest) = natToChars k.toNat ++ rest by rw [hcl]; simp,
          parseNat_print _ _ hrest]
        show some (Json.num ((k.toNat : Int)), rest) = some (Json.num k, rest)
        rw [show ((k.toNat : Int)) = k by omega]
    | str s =>
      rw [show printJ (Json.str s) ++ rest
          = '"' :: (s.data.flatMap escapeChar ++ '"' :: rest) by simp [printJ]]
      rw [parseV_str, parseStrBody_escape]
      rfl
    | arr es =>
      cases es with
      | nil =>
        rw [show printJ (Json.arr []) ++ rest = '[' :: (']' :: rest) by
          simp [printJ, printElems]]
        rw [parseV_lbrack, dropWhile_cons_not_ws _ (by decide)]
        dsimp only
        rw [if_pos rfl]
      | cons x xs =>
        obtain ⟨t, ht⟩ := printElems_cons_eq x xs
        obtain ⟨c, l, hcl, hws, hc⟩ := printJ_head x
        have hdw : (printElems (x :: xs) ++ ']' :: rest).dropWhile isWs
            = c :: (l ++ (t ++ (']' :: rest))) := by
          rw [ht, hcl]
          simp only [List.cons_append, List.append_assoc]
          exact dropWhile_cons_not_ws _ hws
        rw [show printJ (Json.arr (x :: xs)) ++ rest
            = '[' :: (printElems (x :: xs) ++ ']' :: rest) by simp [printJ]]
        rw [parseV_lbrack, hdw]
        dsimp only
        rw [if_neg hc]
        rw [parseElems_print (x :: xs) (by simp) m rest
          (by simp only [jfuel] at hn; omega)]
        rfl
    | obj ms =>
      cases ms with
      | nil =>
        rw [show printJ (Json.obj []) ++ rest = '{' :: ('}' :: rest) by
          simp [printJ, printMembers]]
        rw [parseV_lbrace, dropWhile_cons_not_ws _ (by decide)]
        dsimp only
        rw [if_pos rfl]
      | cons p tl =>
        cases p with
        | mk k v =>
        obtain ⟨t, ht⟩ := printMembers_cons_head k v tl
        have hdw : (printMembers ((k, v) :: tl) ++ '}' :: rest).dropWhile isWs
            = '"' :: (t ++ ('}' :: rest)) := by
          rw [ht]
          simp only [List.cons_append, List.append_assoc]
          exact dropWhile_cons_not_ws _ (by decide)
        rw [show printJ (Json.obj ((k, v) :: tl)) ++ rest
            = '{' :: (printMembers ((k, v) :: tl) ++ '}' :: rest) by simp [printJ]]
        rw [parseV_lbrace, hdw]
        dsimp only
        rw [if_neg (by decide)]
        rw [parseMembers_print ((k, v) :: tl) (by simp) m rest
          (by simp only [jfuel] at hn; omega)]
        rfl

termination_by sizeOf v

theorem parseElems_print (es : List Json) (hne : es ≠ []) (n : Nat)
    (rest : List Char) (hn : efuel es ≤ n) :
    parseElems n (printElems es ++ ']' :: rest) = some (es, rest) := by
  cases es with
  | nil => exact absurd rfl hne
  | cons x xs =>
    cases n with
    | zero => exact absurd hn (by simp [efuel])
    | succ m =>
      cases xs with
      | nil =>
        rw [show printElems [x] ++ ']' :: rest = printJ x ++ ']' :: rest by
          simp [printElems]]
        rw [parseElems, parseV_print x m (']' :: rest)
          (by simp only [efuel] at hn; omega) (by simp [headNotDigit])]
        dsimp only
        rw [dropWhile_cons_not_ws _ (by decide)]
        dsimp only
        rw [if_neg (by decide), if_pos rfl]
      | cons y ys =>
        rw [show printElems (x :: y :: ys) ++ ']' :: rest
            = printJ x ++ ',' :: (printElems (y :: ys) ++ ']' :: rest) by
          simp [printElems]]
        rw [parseElems, parseV_print x m (',' :: (printElems (y :: ys) ++ ']' :: rest))
          (by simp only [efuel] at hn; omega) (by simp [headNotDigit])]
        dsimp only
        rw [dropWhile_cons_not_ws _ (by decide)]
        dsimp only
        rw [if_pos rfl]
        rw [parseElems_print (y :: ys) (by simp) m rest
          (by simp only [efuel] at hn ⊢; omega)]

termination_by sizeOf es

theorem parseMembers_print (ms : List (String × Json)) (hne : ms ≠ []) (n : Nat)
    (rest : List Char) (hn : mfuel ms ≤ n) :
    parseMembers n (printMembers ms ++ '}' :: rest) = some (ms, rest) := by
  cases ms with
  | nil => exact absurd rfl hne
  | cons p tl =>
    cases p with
    | mk k v =>
    cases n with
    | zero => exact absurd hn (by simp [mfuel])
    | succ m =>
      cases tl with
      | nil =>
        rw [show printMembers [(k, v)] ++ '}' :: rest
            = '"' :: (k.data.flatMap escapeChar
                ++ '"' :: (':' :: (printJ v ++ '}' :: rest))) by
          simp [printMembers, printMember]]
        rw [parseMembers, dropWhile_cons_not_ws _ (by decide)]
        dsimp only
        rw [if_pos rfl, parseStrBody_escape]
        dsimp only
        rw [dropWhile_cons_not_ws _ (by decide)]
        dsimp only
        rw [if_pos rfl, parseV_print v m ('}' :: rest)
          (by simp only [mfuel] at hn; omega) (by simp [headNotDigit])]
        dsimp only
        rw [dropWhile_cons_not_ws _ (by decide)]
        dsimp only
        rw [if_neg (by decide), if_pos rfl]
      | cons q tl2 =>
        rw [show printMembers ((k, v) :: q :: tl2) ++ '}' :: rest
            = '"' :: (k.data.flatMap escapeChar
                ++ '"' :: (':' :: (printJ v
                  ++ ',' :: (printMembers (q :: tl2) ++ '}' :: rest)))) by
          simp [printMembers, printMember]]
        rw [parseMembers, dropWhile_cons_not_ws _ (by decide)]
        dsimp only
        rw [if_pos rfl, parseStrBody_escape]
        dsimp only
        rw [dropWhile_cons_not_ws _ (by decide)]
        dsimp only
        rw [if_pos rfl, parseV_print v m (',' :: (printMembers (q :: tl2) ++ '}' :: rest))
          (by simp only [mfuel] at hn; omega) (by simp [headNotDigit])]
        dsimp only
        rw [dropWhile_cons_not_ws _ (by decide)]
        dsimp only
        rw [if_pos rfl]
        rw [parseMembers_print (q :: tl2) (by simp) m rest
          (by simp only [mfuel] at hn ⊢; omega)]
termination_by sizeOf ms

end

mutual

theorem jfuel_le (v : Json) : jfuel v ≤ 2 * (printJ v).length := by
  cases v with
  | null => simp [jfuel, printJ]
  | bool b => cases b <;> simp [jfuel, printJ]
  | num k =>
    have h1 : 1 ≤ (printJ (Json.num k)).length := by
      simp only [printJ]
      split
      · simp
      · cases hnc : natToChars k.toNat with
        | nil => exact absurd hnc (natToChars_ne_nil k.toNat)
        | cons c l => simp [hnc]
    simp only [jfuel]
    omega
  | str s =>
    simp only [jfuel, printJ, List.length_cons]
    omega
  | arr es =>
    have he := efuel_le es
    simp only [jfuel, printJ, List.length_cons, List.length_append,
      List.length_singleton]
    omega
  | obj ms =>
    have hm := mfuel_le ms
    simp only [jfuel, printJ, List.length_cons, List.length_append,
      List.length_singleton]
    omega

theorem efuel_le (es : List Json) : efuel es ≤ 2 * (printElems es).length + 2 := by
  cases es with
  | nil => simp [efuel, printElems]
  | cons x xs =>
    have hx := jfuel_le x
    cases xs with
    | nil =>
      simp only [efuel, printElems]
      omega
    | cons y ys =>
      have hys := efuel_le (y :: ys)
      simp only [efuel, printElems, List.length_append, List.length_cons] at hys ⊢
      omega

theorem mfuel_le (ms : List (String × Json)) :
    mfuel ms ≤ 2 * (printMembers ms).length + 2 := by
  cases ms with
  | nil => simp [mfuel, printMembers]
  | cons p tl =>
    cases p with
    | mk k v =>
    have hv := jfuel_le v
    cases tl with
    | nil =>
      simp only [mfuel, printMembers, printMember, List.length_cons,
        List.length_append]
      omega
    | cons q tl2 =>
      have htl := mfuel_le (q :: tl2)
      simp only [mfuel, printMembers, printMember, List.length_cons,
        List.length_append] at htl ⊢
      omega

end

/-- Round trip at the heart of the metadata column: the model of
`JSON.parse` inverts the model of `JSON.stringify` on every value. -/
theorem parse_stringify (v : Json) : parse (stringify v) = some v := by
  unfold parse stringify
  have hd : (String.mk (printJ v)).data = printJ v := rfl
  rw [hd]
  have hfuel : jfuel v ≤ 2 * (printJ v).length + 2 := by
    have := jfuel_le v
    omega
  have hp := parseV_print v (2 * (printJ v).length + 2) [] hfuel (by rfl)
  rw [List.append_nil] at hp
  rw [hp]
  rfl

end JSON

/-! ## Evaluation lemmas for the service operations -/

theorem find?_append_some {α : Type} {p : α → Bool} {l1 l2 : List α} {d : α}
    (h : l1.find? p = some d) : (l1 ++ l2).find? p = some d := by
  rw [List.find?_append, h]
  rfl

theorem find?_append_none {α : Type} {p : α → Bool} {l1 l2 : List α}
    (h : l1.find? p = none) : (l1 ++ l2).find? p = l2.find? p := by
  rw [List.find?_append, h]
  rfl

theorem find?_map_ite_self (l : List Document) (id : String)
    (f : Document → Document) (hf : ∀ x, (f x).id = x.id) (d : Document)
    (h : l.find? (fun x => x.id == id) = some d) :
    (l.map (fun x => if x.id == id then f x else x)).find?
      (fun x => x.id == id) = some (f d) := by
  induction l with
  | nil => simp at h
  | cons a t ih =>
    rw [List.map_cons]
    cases ha : (a.id == id) with
    | true =>
      simp only [List.find?_cons, ha] at h
      injection h with h
      subst h
      have hfa : ((f a).id == id) = true := by rw [hf a]; exact ha
      simp [List.find?_cons, ha, hfa]
    | false =>
      simp only [List.find?_cons, ha] at h
      simp only [ha, Bool.false_eq_true, if_false, List.find?_cons]
      exact ih h

theorem find?_map_ite_other (l : List Document) (j id : String) (hne : j ≠ id)
    (f : Document → Document) (hf : ∀ x, (f x).id = x.id) :
    (l.map (fun x => if x.id == j then f x else x)).find?
      (fun x => x.id == id) = l.find? (fun x => x.id == id) := by
  induction l with
  | nil => rfl
  | cons a t ih =>
    rw [List.map_cons]
    by_cases haj : a.id = j
    · have h1 : (a.id == j) = true := by simp [haj]
      have h2 : (a.id == id) = false := by
        rw [haj]
        exact beq_eq_false_iff_ne.mpr hne
      have h3 : ((f a).id == id) = false := by rw [hf a]; exact h2
      rw [h1, if_pos rfl]
      simp only [List.find?_cons, h3, h2]
      exact ih
    · have h1 : (a.id == j) = false := by simp [haj]
      rw [h1, if_neg Bool.false_ne_true]
      cases hai : (a.id == id) with
      | true => simp only [List.find?_cons, hai]
      | false =>
        simp only [List.find?_cons, hai]
        exact ih

theorem findUnique_update_self (st : St) (id : String) (f : Document → Document)
    (hf : ∀ x, (f x).id = x.id) (d : Document)
    (h : Prisma.findUnique st id = some d) :
    Prisma.findUnique (Prisma.update st id f) id = some (f d) :=
  find?_map_ite_self st.docs id f hf d h

theorem findUnique_update_other (st : St) (j id : String) (hne : j ≠ id)
    (f : Document → Document) (hf : ∀ x, (f x).id = x.id) :
    Prisma.findUnique (Prisma.update st j f) id = Prisma.findUnique st id :=
  find?_map_ite_other st.docs j id hne f hf


namespace DocumentsService

theorem upload_run_sizefail (env : UploadEnv) (file : MFile) (st : St)
    (h : file.size > 5 * 1024 * 1024) :
    uploadDocument env file st
      = (.error (.badRequest "File size must not exceed 5MB"), st) := by
  unfold uploadDocument
  rw [if_pos h]

theorem upload_run_typefail (env : UploadEnv) (file : MFile) (st : St)
    (h1 : ¬ file.size > 5 * 1024 * 1024) (h2 : ¬ (file.mimetype ∈ allowedMimes)) :
    uploadDocument env file st
      = (.error (.badRequest "Only PDF and DOCX files are supported"), st) := by
  unfold uploadDocument
  rw [if_neg h1, if_pos h2]

theorem upload_run_s3fail (env : UploadEnv) (file : MFile) (st : St) (e : String)
    (h1 : ¬ file.size > 5 * 1024 * 1024) (h2 : file.mimetype ∈ allowedMimes)
    (hs : env.s3.sendResult = .error e) :
    uploadDocument env file st
      = (.error (.badRequest ("Upload failed: " ++ e)), st) := by
  unfold uploadDocument S3Service.uploadFile
  rw [if_neg h1, if_neg (by simp [h2]), hs]

theorem upload_run_extractfail (env : UploadEnv) (file : MFile) (st : St)
    (ex : AppError)
    (h1 : ¬ file.size > 5 * 1024 * 1024) (h2 : file.mimetype ∈ allowedMimes)
    (hs : env.s3.sendResult = .ok ())
    (hx : TextExtractionService.extractText env.text file.buffer file.mimetype
      = .error ex) :
    uploadDocument env file st
      = (.error (.badRequest ("Upload failed: " ++ ex.message)),
         stAfterS3 env file st) := by
  unfold uploadDocument S3Service.uploadFile
  rw [if_neg h1, if_neg (by simp [h2]), hs]
  dsimp only
  rw [hx]
  rfl

theorem upload_run_createfail (env : UploadEnv) (file : MFile) (st : St)
    (text : String) (e : String)
    (h1 : ¬ file.size > 5 * 1024 * 1024) (h2 : file.mimetype ∈ allowedMimes)
    (hs : env.s3.sendResult = .ok ())
    (hx : TextExtractionService.extractText env.text file.buffer file.mimetype
      = .ok text)
    (hc : env.createResult = .error e) :
    uploadDocument env file st
      = (.error (.badRequest ("Upload failed: " ++ e)), stAfterS3 env file st) := by
  unfold uploadDocument S3Service.uploadFile
  rw [if_neg h1, if_neg (by simp [h2]), hs]
  dsimp only
  rw [hx]
  dsimp only
  rw [hc]
  rfl

theorem upload_run_ok (env : UploadEnv) (file : MFile) (st : St) (text : String)
    (h1 : ¬ file.size > 5 * 1024 * 1024) (h2 : file.mimetype ∈ allowedMimes)
    (hs : env.s3.sendResult = .ok ())
    (hx : TextExtractionService.extractText env.text file.buffer file.mimetype
      = .ok text)
    (hc : env.createResult = .ok ()) :
    uploadDocument env file st
      = (.ok { id := env.newId, originalName := file.originalname,
               mimeType := file.mimetype, size := file.size,
               createdAt := env.now },
         { stAfterS3 env file st with
           docs := st.docs ++ [createdDoc env file text] }) := by
  unfold uploadDocument S3Service.uploadFile
  rw [if_neg h1, if_neg (by simp [h2]), hs]
  dsimp only
  rw [hx]
  dsimp only
  rw [hc]
  rfl

/-- The update applied to the row by a successful analyze call. -/
theorem analyze_run_notfound (env : AnalyzeEnv) (id : String) (st : St)
    (h : Prisma.findUnique st id = none) :
    analyzeDocument env id st = (.error (.notFound "Document not found"), st) := by
  unfold analyzeDocument
  rw [h]

theorem analyze_run_notext (env : AnalyzeEnv) (id : String) (st : St)
    (d : Document) (h : Prisma.findUnique st id = some d)
    (ht : jsFalsyText d.extractedText = true) :
    analyzeDocument env id st
      = (.error (.badRequest "No extracted text found for this document"), st) := by
  unfold analyzeDocument
  rw [h]
  dsimp only
  rw [if_pos ht]

theorem analyze_run_llmfail (env : AnalyzeEnv) (id : String) (st : St)
    (d : Document) (e : String) (h : Prisma.findUnique st id = some d)
    (ht : jsFalsyText d.extractedText = false)
    (hl : env.llmResult = .error e) :
    analyzeDocument env id st
      = (.error (.badRequest ("Analysis failed: " ++ e)), st) := by
  unfold analyzeDocument
  rw [h]
  dsimp only
  rw [if_neg (by rw [ht]; exact Bool.false_ne_true), hl]

theorem analyze_run_updatefail (env : AnalyzeEnv) (id : String) (st : St)
    (d : Document) (a : Analysis) (e : String)
    (h : Prisma.findUnique st id = some d)
    (ht : jsFalsyText d.extractedText = false)
    (hl : env.llmResult = .ok a) (hu : env.updateResult = .error e) :
    analyzeDocument env id st
      = (.error (.badRequest ("Analysis failed: " ++ e)), st) := by
  unfold analyzeDocument
  rw [h]
  dsimp only
  rw [if_neg (by rw [ht]; exact Bool.false_ne_true), hl]
  dsimp only
  rw [hu]

theorem analyze_run_ok (env : AnalyzeEnv) (id : String) (st : St)
    (d : Document) (a : Analysis)
    (h : Prisma.findUnique st id = some d)
    (ht : jsFalsyText d.extractedText = false)
    (hl : env.llmResult = .ok a) (hu : env.updateResult = .ok ()) :
    analyzeDocument env id st
      = (.ok { id := d.id, summary := some a.summary, docType := some a.docType,
               attributes := a.attributes },
         Prisma.update st id (analyzeUpd a env.now)) := by
  unfold analyzeDocument
  rw [h]
  dsimp only
  rw [if_neg (by rw [ht]; exact Bool.false_ne_true), hl]
  dsimp only
  rw [hu]
  rfl

theorem get_run_notfound (id : String) (st : St)
    (h : Prisma.findUnique st id = none) :
    getDocument id st = (.error (.notFound "Document not found"), st) := by
  unfold getDocument
  rw [h]

theorem get_run_found (id : String) (st : St) (d : Document)
    (h : Prisma.findUnique st id = some d) :
    getDocument id st
      = (.ok { fileInfo := { id := d.id, originalName := d.originalName,
                             mimeType := d.mimeType, size := d.size,
                             s3Key := d.s3Key, createdAt := d.createdAt,
                             updatedAt := d.updatedAt },
               text := d.extractedText, summary := d.summary,
               docType := d.docType,
               metadata := d.metadata.bind JSON.parse }, st) := by
  unfold getDocument
  rw [h]

theorem get_state_id (id : String) (st : St) : (getDocument id st).2 = st := by
  unfold getDocument
  cases Prisma.findUnique st id <;> rfl

end DocumentsService


namespace DocumentsService

theorem upload_docs_shape (env : UploadEnv) (file : MFile) (st : St) :
    (uploadDocument env file st).2.docs = st.docs
    ∨ ∃ doc, (uploadDocument env file st).2.docs = st.docs ++ [doc] := by
  by_cases h1 : file.size > 5 * 1024 * 1024
  · rw [upload_run_sizefail env file st h1]
    exact Or.inl rfl
  by_cases h2 : file.mimetype ∈ allowedMimes
  case neg =>
    rw [upload_run_typefail env file st h1 h2]
    exact Or.inl rfl
  cases hs : env.s3.sendResult with
  | error e =>
    rw [upload_run_s3fail env file st e h1 h2 hs]
    exact Or.inl rfl
  | ok u =>
    cases u
    cases hx : TextExtractionService.extractText env.text file.buffer file.mimetype with
    | error ex =>
      rw [upload_run_extractfail env file st ex h1 h2 hs hx]
      exact Or.inl rfl
    | ok text =>
      cases hc : env.createResult with
      | error e =>
        rw [upload_run_createfail env file st text e h1 h2 hs hx hc]
        exact Or.inl rfl
      | ok u2 =>
        cases u2
        rw [upload_run_ok env file st text h1 h2 hs hx hc]
        exact Or.inr ⟨createdDoc env file text, rfl⟩

theorem analyze_state_shape (env : AnalyzeEnv) (j : String) (st : St) :
    (analyzeDocument env j st).2 = st
    ∨ ∃ f : Document → Document, (∀ x, (f x).id = x.id)
        ∧ (analyzeDocument env j st).2 = Prisma.update st j f := by
  cases hfind : Prisma.findUnique st j with
  | none =>
    rw [analyze_run_notfound env j st hfind]
    exact Or.inl rfl
  | some d =>
    cases ht : jsFalsyText d.extractedText with
    | true =>
      rw [analyze_run_notext env j st d hfind ht]
      exact Or.inl rfl
    | false =>
      cases hl : env.llmResult with
      | error e =>
        rw [analyze_run_llmfail env j st d e hfind ht hl]
        exact Or.inl rfl
      | ok a =>
        cases hu : env.updateResult with
        | error e =>
          rw [analyze_run_updatefail env j st d a e hfind ht hl hu]
          exact Or.inl rfl
        | ok u =>
          cases u
          rw [analyze_run_ok env j st d a hfind ht hl hu]
          exact Or.inr ⟨analyzeUpd a env.now, fun x => rfl, rfl⟩

end DocumentsService

/-- States reachable from a given state by further service calls that never
analyze the protected identifier `avoid`: any upload, any analyze of a
different identifier, any get. -/

theorem reach_preserves_findUnique {avoid : String} {st st' : St}
    (h : Reach avoid st st') (d : Document)
    (hd : Prisma.findUnique st avoid = some d) :
    Prisma.findUnique st' avoid = some d := by
  induction h with
  | refl => exact hd
  | upload st2 env file hr ih =>
    rcases DocumentsService.upload_docs_shape env file st2 with heq | ⟨doc, heq⟩
    · rw [show Prisma.findUnique (DocumentsService.uploadDocument env file st2).2 avoid
          = ((DocumentsService.uploadDocument env file st2).2.docs).find?
              (fun x => x.id == avoid) from rfl, heq]
      exact ih
    · rw [show Prisma.findUnique (DocumentsService.uploadDocument env file st2).2 avoid
          = ((DocumentsService.uploadDocument env file st2).2.docs).find?
              (fun x => x.id == avoid) from rfl, heq]
      exact find?_append_some ih
  | analyze st2 env j hr hne ih =>
    rcases DocumentsService.analyze_state_shape env j st2 with heq | ⟨f, hf, heq⟩
    · rw [heq]
      exact ih
    · rw [heq, findUnique_update_other st2 j avoid hne f hf]
      exact ih
  | getDoc st2 j hr ih =>
    rw [DocumentsService.get_state_id]
    exact ih

theorem size_msg_not_wrapped (m : String) :
    "File size must not exceed 5MB" ≠ "Upload failed: " ++ m := by
  intro h
  have h2 := congrArg String.data h
  rw [String.data_append,
    show "Upload failed: ".data = 'U' :: "pload failed: ".data from rfl,
    show "File size must not exceed 5MB".data
      = 'F' :: "ile size must not exceed 5MB".data from rfl,
    List.cons_append] at h2
  injection h2 with h3 _
  exact absurd h3 (by decide)

theorem type_msg_not_wrapped (m : String) :
    "Only PDF and DOCX files are supported" ≠ "Upload failed: " ++ m := by
  intro h
  have h2 := congrArg String.data h
  rw [String.data_append,
    show "Upload failed: ".data = 'U' :: "pload failed: ".data from rfl,
    show "Only PDF and DOCX files are supported".data
      = 'O' :: "nly PDF and DOCX files are supported".data from rfl,
    List.cons_append] at h2
  injection h2 with h3 _
  exact absurd h3 (by decide)

theorem notfound_msg_not_wrapped (m : String) :
    "Document not found" ≠ "Analysis failed: " ++ m := by
  intro h
  have h2 := congrArg String.data h
  rw [String.data_append,
    show "Analysis failed: ".data = 'A' :: "nalysis failed: ".data from rfl,
    show "Document not found".data = 'D' :: "ocument not found".data from rfl,
    List.cons_append] at h2
  injection h2 with h3 _
  exact absurd h3 (by decide)

theorem notext_msg_not_wrapped (m : String) :
    "No extracted text found for this document" ≠ "Analysis failed: " ++ m := by
  intro h
  have h2 := congrArg String.data h
  rw [String.data_append,
    show "Analysis failed: ".data = 'A' :: "nalysis failed: ".data from rfl,
    show "No extracted text found for this document".data
      = 'N' :: "o extracted text found for this document".data from rfl,
    List.cons_append] at h2
  injection h2 with h3 _
  exact absurd h3 (by decide)

theorem dropWhile_head_false {α : Type} (p : α → Bool) (l : List α) (c : α)
    (t : List α) (h : l.dropWhile p = c :: t) : p c = false := by
  induction l with
  | nil => simp at h
  | cons a r ih =>
    cases hpa : p a with
    | true =>
      rw [List.dropWhile_cons, hpa, if_pos rfl] at h
      exact ih h
    | false =>
      rw [List.dropWhile_cons, hpa, if_neg Bool.false_ne_true] at h
      injection h with h1 _
      subst h1
      exact hpa

theorem mem_dropWhile_of_append (pre rest0 : List Char) (x : Char)
    (hx : x ∈ rest0) :
    x ∈ (pre ++ '{' :: rest0).dropWhile (fun c => !(c == '{')) := by
  induction pre with
  | nil =>
    rw [List.nil_append, List.dropWhile_cons,
      show (!('{' == '{')) = false from rfl, if_neg Bool.false_ne_true]
    exact List.mem_cons_of_mem _ hx
  | cons a t ih =>
    rw [List.cons_append, List.dropWhile_cons]
    cases hpa : (!(a == '{')) with
    | true =>
      rw [if_pos rfl]
      exact ih
    | false =>
      rw [if_neg Bool.false_ne_true]
      exact List.mem_cons_of_mem _
        (List.mem_append.mpr (Or.inr (List.mem_cons_of_mem _ hx)))

theorem jsonMatch_some_of_decomp (content : String) (pre mid post : List Char)
    (h : content.data = pre ++ '{' :: (mid ++ '}' :: post)) :
    ∃ s, OpenRouterService.jsonMatch content = some s := by
  unfold OpenRouterService.jsonMatch
  have hmem : '}' ∈ content.data.dropWhile (fun c => !(c == '{')) := by
    rw [h]
    exact mem_dropWhile_of_append pre _ '}' (by simp)
  cases hl : content.data.dropWhile (fun c => !(c == '{')) with
  | nil =>
    rw [hl] at hmem
    simp at hmem
  | cons c t =>
    rw [hl] at hmem
    dsimp only
    have hm : ¬ ((c :: t).reverse.dropWhile (fun c => !(c == '}'))).reverse = [] := by
      intro hmm
      have hdw : (c :: t).reverse.dropWhile (fun c => !(c == '}')) = [] :=
        List.reverse_eq_nil_iff.mp hmm
      rw [List.dropWhile_eq_nil_iff] at hdw
      have h1 := hdw '}' (List.mem_reverse.mpr hmem)
      simp at h1
    rw [if_neg hm]
    exact ⟨_, rfl⟩

theorem jsonMatch_decomp_of_some (content : String) (s : String)
    (h : OpenRouterService.jsonMatch content = some s) :
    ∃ pre mid post : List Char,
      content.data = pre ++ '{' :: (mid ++ '}' :: post) := by
  unfold OpenRouterService.jsonMatch at h
  cases hl : content.data.dropWhile (fun c => !(c == '{')) with
  | nil =>
    rw [hl] at h
    simp at h
  | cons c t =>
    rw [hl] at h
    dsimp only at h
    by_cases hm : ((c :: t).reverse.dropWhile (fun c => !(c == '}'))).reverse = []
    · rw [if_pos hm] at h
      simp at h
    · have hc : (!(c == '{')) = false :=
        dropWhile_head_false (fun c => !(c == '{')) content.data c t hl
      have hc' : c = '{' := by simpa using hc
      have hsplit : c :: t
          = ((c :: t).reverse.dropWhile (fun c => !(c == '}'))).reverse
            ++ ((c :: t).reverse.takeWhile (fun c => !(c == '}'))).reverse := by
        have h0 := List.takeWhile_append_dropWhile
          (fun c => !(c == '}')) (c :: t).reverse
        have h2 := congrArg List.reverse h0
        rw [List.reverse_append, List.reverse_reverse] at h2
        exact h2.symm
      have hdw_ne : (c :: t).reverse.dropWhile (fun c => !(c == '}')) ≠ [] := by
        intro h0
        exact hm (by rw [h0]; rfl)
      obtain ⟨d0, w, hdw⟩ : ∃ d0 w,
          (c :: t).reverse.dropWhile (fun c => !(c == '}')) = d0 :: w := by
        cases hx : (c :: t).reverse.dropWhile (fun c => !(c == '}')) with
        | nil => exact absurd hx hdw_ne
        | cons a b => exact ⟨a, b, rfl⟩
      have hd0 : d0 = '}' := by
        have h1 := dropWhile_head_false (fun c => !(c == '}'))
          (c :: t).reverse d0 w hdw
        simpa using h1
      have hmform : ((c :: t).reverse.dropWhile (fun c => !(c == '}'))).reverse
          = w.reverse ++ ['}'] := by
        rw [hdw, List.reverse_cons, hd0]
      rw [hmform] at hsplit
      set r2 := ((c :: t).reverse.takeWhile (fun c => !(c == '}'))).reverse
        with hr2
      cases hwr : w.reverse with
      | nil =>
        rw [hwr, List.nil_append, List.cons_append, List.nil_append] at hsplit
        injection hsplit with hch _
        rw [hc'] at hch
        exact absurd hch (by decide)
      | cons a wr2 =>
        have ha : a = '{' := by
          rw [hwr, List.cons_append, List.cons_append] at hsplit
          have := (List.cons.inj hsplit).1
          rw [← this]
          exact hc'
        refine ⟨content.data.takeWhile (fun c => !(c == '{')), wr2, r2, ?_⟩
        have hpre := List.takeWhile_append_dropWhile
          (fun c => !(c == '{')) content.data
        rw [hl] at hpre
        conv_lhs => rw [← hpre]
        rw [hsplit, hwr, ha]
        simp [List.append_assoc]

/-! ## The claims -/

/-- C1: for every Document identifier, `getDocument` fails with the
not-found error when the identifier resolves to no Document; when it
resolves, the stored metadata text blob is deserialized to a mapping if
present — in particular a stored serialization of `j` is returned exactly
as `j` — and the explicit absent value (not an error) is produced when
metadata is unset; the result is the composite of file descriptor,
extracted text, summary, docType and metadata mapping.  The operation is
modelled from the spec because its body is absent from the shipped
service source (see `DocumentsService.getDocument`). -/
theorem C1_get_document (id : String) (st : St) :
    (Prisma.findUnique st id = none →
      DocumentsService.getDocument id st
        = (.error (.notFound "Document not found"), st))
    ∧ (∀ d, Prisma.findUnique st id = some d →
        DocumentsService.getDocument id st
          = (.ok { fileInfo := { id := d.id, originalName := d.originalName,
                                 mimeType := d.mimeType, size := d.size,
                                 s3Key := d.s3Key, createdAt := d.createdAt,
                                 updatedAt := d.updatedAt },
                   text := d.extractedText, summary := d.summary,
                   docType := d.docType,
                   metadata := d.metadata.bind JSON.parse }, st)
        ∧ (d.metadata = none → d.metadata.bind JSON.parse = none)
        ∧ (∀ j : Json, d.metadata = some (JSON.stringify j) →
            d.metadata.bind JSON.parse = some j)) := by
  constructor
  · intro h
    exact DocumentsService.get_run_notfound id st h
  · intro d hd
    refine ⟨DocumentsService.get_run_found id st d hd, ?_, ?_⟩
    · intro hm
      rw [hm]
      rfl
    · intro j hm
      rw [hm]
      show JSON.parse (JSON.stringify j) = some j
      exact JSON.parse_stringify j

/-- Witness for C1 at a concrete state: get on a missing identifier. -/
theorem C1_witness :
    DocumentsService.getDocument "missing" wSt
      = (.error (.notFound "Document not found"), wSt) :=
  (C1_get_document "missing" wSt).1 rfl

/-- C2, as stated, is false.  The concrete input is a 6 MiB PNG: its MIME
type is outside the two supported types, yet `uploadDocument` rejects it
with the size-limit error, because the size check runs first; hence the
claim's universal statement — every unsupported-MIME file is rejected with
the unsupported-type error regardless of size — does not hold. -/
theorem C2_counterexample :
    ¬ (wFileBigPng.mimetype ∈ allowedMimes)
    ∧ DocumentsService.uploadDocument wUploadEnv wFileBigPng ⟨[], []⟩
        = (.error (.badRequest "File size must not exceed 5MB"), (⟨[], []⟩ : St))
    ∧ ¬ (∀ (env : UploadEnv) (file : MFile) (st : St),
          ¬ (file.mimetype ∈ allowedMimes) →
          DocumentsService.uploadDocument env file st
            = (.error (.badRequest "Only PDF and DOCX files are supported"), st)) := by
  refine ⟨by decide, rfl, ?_⟩
  intro h
  have hb := h wUploadEnv wFileBigPng ⟨[], []⟩ (by decide)
  have hs : DocumentsService.uploadDocument wUploadEnv wFileBigPng ⟨[], []⟩
      = (.error (.badRequest "File size must not exceed 5MB"), (⟨[], []⟩ : St)) := rfl
  have hmsg := congrArg Prod.fst (hs.symm.trans hb)
  injection hmsg with he
  exact absurd he (by decide)

/-- C2 (amended): for every file whose MIME type is outside the two
supported types, `uploadDocument` rejects it — with the unsupported-type
error when the file passes the size check, and with the size-limit error
(which wins, being checked first) when the file is also oversized. -/
theorem C2_unsupported_type (env : UploadEnv) (file : MFile) (st : St)
    (h : ¬ (file.mimetype ∈ allowedMimes)) :
    (file.size ≤ 5242880 →
      DocumentsService.uploadDocument env file st
        = (.error (.badRequest "Only PDF and DOCX files are supported"), st))
    ∧ (file.size > 5242880 →
      DocumentsService.uploadDocument env file st
        = (.error (.badRequest "File size must not exceed 5MB"), st)) := by
  constructor
  · intro hs
    exact DocumentsService.upload_run_typefail env file st (by omega) h
  · intro hs
    exact DocumentsService.upload_run_sizefail env file st (by omega)

/-- Witness for C2 (amended): both branches at concrete PNG uploads —
a small PNG gets the unsupported-type error, an oversized PNG the
size-limit error. -/
theorem C2_witness :
    (DocumentsService.uploadDocument wUploadEnv wFilePng ⟨[], []⟩
      = (.error (.badRequest "Only PDF and DOCX files are supported"),
         (⟨[], []⟩ : St)))
    ∧ (DocumentsService.uploadDocument wUploadEnv wFileBigPng ⟨[], []⟩
      = (.error (.badRequest "File size must not exceed 5MB"),
         (⟨[], []⟩ : St))) :=
  ⟨(C2_unsupported_type wUploadEnv wFilePng ⟨[], []⟩ (by decide)).1 (by decide),
   (C2_unsupported_type wUploadEnv wFileBigPng ⟨[], []⟩ (by decide)).2 (by decide)⟩

/-- C3: `uploadDocument` validates in a fixed order with the first failure
winning: any file strictly larger than 5,242,880 bytes is rejected with
the size-limit error (whatever its MIME type); a file within the limit —
including exactly 5,242,880 bytes — is never rejected with the size-limit
error; and a file passing the size check whose MIME type is not one of
the two supported types is rejected with the unsupported-type error. -/
theorem C3_validation_order (env : UploadEnv) (file : MFile) (st : St) :
    (file.size > 5242880 →
      DocumentsService.uploadDocument env file st
        = (.error (.badRequest "File size must not exceed 5MB"), st))
    ∧ (file.size ≤ 5242880 →
      (DocumentsService.uploadDocument env file st).1
        ≠ .error (.badRequest "File size must not exceed 5MB"))
    ∧ (file.size ≤ 5242880 → ¬ (file.mimetype ∈ allowedMimes) →
      DocumentsService.uploadDocument env file st
        = (.error (.badRequest "Only PDF and DOCX files are supported"), st)) := by
  refine ⟨?_, ?_, ?_⟩
  · intro h
    exact DocumentsService.upload_run_sizefail env file st (by omega)
  · intro h
    by_cases h2 : file.mimetype ∈ allowedMimes
    case neg =>
      rw [DocumentsService.upload_run_typefail env file st (by omega) h2]
      intro hcon
      injection hcon with hc
      injection hc with hmsg
      exact absurd hmsg (by decide)
    case pos =>
      cases hs : env.s3.sendResult with
      | error e =>
        rw [DocumentsService.upload_run_s3fail env file st e (by omega) h2 hs]
        intro hcon
        injection hcon with hc
        injection hc with hmsg
        exact size_msg_not_wrapped e hmsg.symm
      | ok u =>
        cases u
        cases hx : TextExtractionService.extractText env.text file.buffer
            file.mimetype with
        | error ex =>
          rw [DocumentsService.upload_run_extractfail env file st ex
            (by omega) h2 hs hx]
          intro hcon
          injection hcon with hc
          injection hc with hmsg
          exact size_msg_not_wrapped ex.message hmsg.symm
        | ok text =>
          cases hc : env.createResult with
          | error e =>
            rw [DocumentsService.upload_run_createfail env file st text e
              (by omega) h2 hs hx hc]
            intro hcon
            injection hcon with hc2
            injection hc2 with hmsg
            exact size_msg_not_wrapped e hmsg.symm
          | ok u2 =>
            cases u2
            rw [DocumentsService.upload_run_ok env file st text
              (by omega) h2 hs hx hc]
            intro hcon
            exact Except.noConfusion hcon
  · intro h1 h2
    exact DocumentsService.upload_run_typefail env file st (by omega) h2

/-- Witness for C3 at a concrete oversized supported-type file. -/
theorem C3_witness :
    DocumentsService.uploadDocument wUploadEnv
        { originalname := "test.pdf", mimetype := "application/pdf",
          size := 6291456, buffer := "PDF" } ⟨[], []⟩
      = (.error (.badRequest "File size must not exceed 5MB"),
         (⟨[], []⟩ : St)) :=
  (C3_validation_order wUploadEnv
    { originalname := "test.pdf", mimetype := "application/pdf",
      size := 6291456, buffer := "PDF" } ⟨[], []⟩).1 (by decide)

/-- C4: `analyzeDocument` on a nonexistent identifier fails with the
not-found error, and on a Document whose extracted text is unset or empty
fails with the no-text error; in both cases the returned state is exactly
the input state (the Document table is unchanged), and the outcome is the
same for every environment, i.e. it does not depend on what the remote
analysis adapter would return — the adapter is never invoked. -/
theorem C4_analyze_guards (id : String) (st : St) :
    (Prisma.findUnique st id = none →
      ∀ env : AnalyzeEnv,
        DocumentsService.analyzeDocument env id st
          = (.error (.notFound "Document not found"), st))
    ∧ (∀ d, Prisma.findUnique st id = some d →
        (d.extractedText = none ∨ d.extractedText = some "") →
        ∀ env : AnalyzeEnv,
          DocumentsService.analyzeDocument env id st
            = (.error (.badRequest "No extracted text found for this document"),
               st)) := by
  constructor
  · intro h env
    exact DocumentsService.analyze_run_notfound env id st h
  · intro d hd ht env
    apply DocumentsService.analyze_run_notext env id st d hd
    rcases ht with ht | ht <;> rw [ht] <;> rfl

/-- Witness for C4 at a concrete state with a missing identifier. -/
theorem C4_witness :
    DocumentsService.analyzeDocument wAnalyzeEnv "missing" wSt
      = (.error (.notFound "Document not found"), wSt) :=
  (C4_analyze_guards "missing" wSt).1 rfl wAnalyzeEnv

/-- C5: for every attributes mapping produced by the analysis adapter,
serializing it at analyze's update step and deserializing it at get's
read step returns a mapping equal to the original: analyze-then-get is
the identity on the metadata mapping.  (`getDocument` is modelled from
the spec; see its doc comment.) -/
theorem C5_metadata_roundtrip (env : AnalyzeEnv) (id : String) (st : St)
    (d : Document) (a : Analysis) (kvs : List (String × Json))
    (hfind : Prisma.findUnique st id = some d)
    (htext : jsFalsyText d.extractedText = false)
    (hllm : env.llmResult = .ok a)
    (hattr : a.attributes = .obj kvs)
    (hupd : env.updateResult = .ok ()) :
    ∃ (resp : AnalyzeResponse) (st' : St) (r : GetResponse),
      DocumentsService.analyzeDocument env id st = (.ok resp, st')
      ∧ resp.attributes = .obj kvs
      ∧ DocumentsService.getDocument id st' = (.ok r, st')
      ∧ r.metadata = some (.obj kvs) := by
  have hfind' : Prisma.findUnique
      (Prisma.update st id (DocumentsService.analyzeUpd a env.now)) id
      = some (DocumentsService.analyzeUpd a env.now d) :=
    findUnique_update_self st id (DocumentsService.analyzeUpd a env.now)
      (fun x => rfl) d hfind
  refine ⟨_, _, _,
    DocumentsService.analyze_run_ok env id st d a hfind htext hllm hupd,
    hattr,
    DocumentsService.get_run_found id _ _ hfind', ?_⟩
  show ((DocumentsService.analyzeUpd a env.now d).metadata).bind JSON.parse
      = some (Json.obj kvs)
  rw [show (DocumentsService.analyzeUpd a env.now d).metadata
      = some (JSON.stringify a.attributes) from rfl, hattr]
  show JSON.parse (JSON.stringify (Json.obj kvs)) = some (Json.obj kvs)
  exact JSON.parse_stringify _

/-- Witness for C5 at a concrete document, adapter result and state. -/
theorem C5_witness :
    ∃ (resp : AnalyzeResponse) (st' : St) (r : GetResponse),
      DocumentsService.analyzeDocument wAnalyzeEnv "doc-1" wSt = (.ok resp, st')
      ∧ resp.attributes = .obj [("keywords", .arr [.str "bill", .str "2025"])]
      ∧ DocumentsService.getDocument "doc-1" st' = (.ok r, st')
      ∧ r.metadata = some (.obj [("keywords", .arr [.str "bill", .str "2025"])]) :=
  C5_metadata_roundtrip wAnalyzeEnv "doc-1" wSt wDoc wAnalysis
    [("keywords", .arr [.str "bill", .str "2025"])] rfl rfl rfl rfl rfl

/-- C6: a successful upload returns an identifier that resolves via get to
a record whose `fileInfo.originalName`, `mimeType` and `size` equal the
uploaded file's declared values, with `summary`, `docType` and `metadata`
absent — and they stay absent in every state reachable by further service
calls that never analyze that identifier.  The freshness hypothesis
reflects the database's primary-key uniqueness: the id Prisma generates
for the new row resolves to no existing row.  (`getDocument` is modelled
from the spec; see its doc comment.) -/
theorem C6_upload_fields_until_analyze (env : UploadEnv) (file : MFile)
    (st : St) (resp : UploadResponse) (st1 : St)
    (hok : DocumentsService.uploadDocument env file st = (.ok resp, st1))
    (hfresh : Prisma.findUnique st env.newId = none) :
    resp.id = env.newId
    ∧ resp.originalName = file.originalname
    ∧ resp.mimeType = file.mimetype
    ∧ resp.size = file.size
    ∧ ∀ st' : St, Reach env.newId st1 st' →
        ∃ r : GetResponse,
          DocumentsService.getDocument resp.id st' = (.ok r, st')
          ∧ r.fileInfo.originalName = file.originalname
          ∧ r.fileInfo.mimeType = file.mimetype
          ∧ r.fileInfo.size = file.size
          ∧ r.summary = none ∧ r.docType = none ∧ r.metadata = none := by
  by_cases h1 : file.size > 5 * 1024 * 1024
  · rw [DocumentsService.upload_run_sizefail env file st h1] at hok
    simp at hok
  by_cases h2 : file.mimetype ∈ allowedMimes
  case neg =>
    rw [DocumentsService.upload_run_typefail env file st h1 h2] at hok
    simp at hok
  cases hs : env.s3.sendResult with
  | error e =>
    rw [DocumentsService.upload_run_s3fail env file st e h1 h2 hs] at hok
    simp at hok
  | ok u =>
    cases u
    cases hx : TextExtractionService.extractText env.text file.buffer
        file.mimetype with
    | error ex =>
      rw [DocumentsService.upload_run_extractfail env file st ex h1 h2 hs hx]
        at hok
      simp at hok
    | ok text =>
      cases hc : env.createResult with
      | error e =>
        rw [DocumentsService.upload_run_createfail env file st text e
          h1 h2 hs hx hc] at hok
        simp at hok
      | ok u2 =>
        cases u2
        rw [DocumentsService.upload_run_ok env file st text h1 h2 hs hx hc]
          at hok
        have hresp : resp
            = { id := env.newId
                originalName := file.originalname
                mimeType := file.mimetype
                size := file.size
                createdAt := env.now } := by
          have := congrArg Prod.fst hok
          dsimp at this
          injection this with h3
          exact h3.symm
        have hst1 : st1.docs = st.docs ++ [DocumentsService.createdDoc env file text] := by
          have := congrArg Prod.snd hok
          dsimp at this
          rw [← this]
        subst hresp
        refine ⟨rfl, rfl, rfl, rfl, ?_⟩
        intro st' hreach
        have hfind1 : Prisma.findUnique st1 env.newId
            = some (DocumentsService.createdDoc env file text) := by
          show st1.docs.find? (fun x => x.id == env.newId)
            = some (DocumentsService.createdDoc env file text)
          rw [hst1, find?_append_none hfresh]
          simp [List.find?_cons, DocumentsService.createdDoc]
        have hfind' := reach_preserves_findUnique hreach _ hfind1
        refine ⟨_, DocumentsService.get_run_found env.newId st' _ hfind', ?_⟩
        exact ⟨rfl, rfl, rfl, rfl, rfl, rfl⟩

/-- Witness for C6: the concrete successful upload, with the reachable
state taken to be the post-upload state itself. -/
theorem C6_witness :
    ∃ r : GetResponse,
      DocumentsService.getDocument "doc-1" wSt1 = (.ok r, wSt1)
      ∧ r.fileInfo.originalName = "test.pdf"
      ∧ r.fileInfo.mimeType = "application/pdf"
      ∧ r.fileInfo.size = 1024
      ∧ r.summary = none ∧ r.docType = none ∧ r.metadata = none :=
  (C6_upload_fields_until_analyze wUploadEnv wFile ⟨[], []⟩ wRespUp wSt1
    rfl rfl).2.2.2.2 wSt1 (Reach.refl wSt1)

/-- C7: every storage, extraction or persistence failure in upload's
post-validation phase is re-signaled as the single upload-failure error
carrying the cause's message, and every adapter or persistence failure in
analyze's LLM-call and update steps is re-signaled as the single
analysis-failure error carrying the cause's message; the validation and
not-found error messages are not of the wrapped form. -/
theorem C7_failure_wrapping (envU : UploadEnv) (envA : AnalyzeEnv)
    (file : MFile) (st : St) (id : String) :
    (∀ e, file.size ≤ 5242880 → file.mimetype ∈ allowedMimes →
      envU.s3.sendResult = .error e →
      DocumentsService.uploadDocument envU file st
        = (.error (.badRequest ("Upload failed: " ++ e)), st))
    ∧ (∀ ex, file.size ≤ 5242880 → file.mimetype ∈ allowedMimes →
      envU.s3.sendResult = .ok () →
      TextExtractionService.extractText envU.text file.buffer file.mimetype
        = .error ex →
      DocumentsService.uploadDocument envU file st
        = (.error (.badRequest ("Upload failed: " ++ ex.message)),
           DocumentsService.stAfterS3 envU file st))
    ∧ (∀ text e, file.size ≤ 5242880 → file.mimetype ∈ allowedMimes →
      envU.s3.sendResult = .ok () →
      TextExtractionService.extractText envU.text file.buffer file.mimetype
        = .ok text →
      envU.createResult = .error e →
      DocumentsService.uploadDocument envU file st
        = (.error (.badRequest ("Upload failed: " ++ e)),
           DocumentsService.stAfterS3 envU file st))
    ∧ (∀ d e, Prisma.findUnique st id = some d →
      jsFalsyText d.extractedText = false →
      envA.llmResult = .error e →
      DocumentsService.analyzeDocument envA id st
        = (.error (.badRequest ("Analysis failed: " ++ e)), st))
    ∧ (∀ d a e, Prisma.findUnique st id = some d →
      jsFalsyText d.extractedText = false →
      envA.llmResult = .ok a → envA.updateResult = .error e →
      DocumentsService.analyzeDocument envA id st
        = (.error (.badRequest ("Analysis failed: " ++ e)), st))
    ∧ (∀ m, "File size must not exceed 5MB" ≠ "Upload failed: " ++ m)
    ∧ (∀ m, "Only PDF and DOCX files are supported" ≠ "Upload failed: " ++ m)
    ∧ (∀ m, "Document not found" ≠ "Analysis failed: " ++ m)
    ∧ (∀ m, "No extracted text found for this document"
        ≠ "Analysis failed: " ++ m) := by
  refine ⟨?_, ?_, ?_, ?_, ?_,
    size_msg_not_wrapped, type_msg_not_wrapped,
    notfound_msg_not_wrapped, notext_msg_not_wrapped⟩
  · intro e h1 h2 hs
    exact DocumentsService.upload_run_s3fail envU file st e (by omega) h2 hs
  · intro ex h1 h2 hs hx
    exact DocumentsService.upload_run_extractfail envU file st ex
      (by omega) h2 hs hx
  · intro text e h1 h2 hs hx hc
    exact DocumentsService.upload_run_createfail envU file st text e
      (by omega) h2 hs hx hc
  · intro d e hd ht hl
    exact DocumentsService.analyze_run_llmfail envA id st d e hd ht hl
  · intro d a e hd ht hl hu
    exact DocumentsService.analyze_run_updatefail envA id st d a e hd ht hl hu

/-- Witness for C7: the S3 failure point at a concrete environment. -/
theorem C7_witness :
    DocumentsService.uploadDocument wUploadEnvS3Fail wFile wSt
      = (.error (.badRequest ("Upload failed: " ++ "S3 error")), wSt) :=
  (C7_failure_wrapping wUploadEnvS3Fail wAnalyzeEnv wFile wSt "doc-1").1
    "S3 error" (by decide) (by decide) rfl

/-- C8: the LLM response parser fails with a parse error exactly when the
response text contains no brace-delimited substring (an opening brace with
a closing brace after it) or the located substring is not valid JSON;
otherwise it parses that substring and returns summary, docType and
attributes, substituting the fixed placeholder for a missing summary, the
fixed "unknown" placeholder for a missing docType, and the empty mapping
for missing attributes (present truthy values are returned unchanged). -/
theorem C8_parse_analysis_response (content : String) :
    ((∃ err, OpenRouterService.parseAnalysisResponse content = .error err)
      ↔ ((¬ ∃ pre mid post : List Char,
            content.data = pre ++ '{' :: (mid ++ '}' :: post))
         ∨ (∃ s, OpenRouterService.jsonMatch content = some s
              ∧ JSON.parse s = none)))
    ∧ (∀ s parsed, OpenRouterService.jsonMatch content = some s →
        JSON.parse s = some parsed →
        ∃ res, OpenRouterService.parseAnalysisResponse content = .ok res
          ∧ (jsGet parsed "summary" = none →
              res.summary = .str "No summary available")
          ∧ (jsGet parsed "docType" = none → res.docType = .str "unknown")
          ∧ (jsGet parsed "attributes" = none → res.attributes = .obj [])
          ∧ (∀ v, jsGet parsed "summary" = some v → jsTruthy v = true →
              res.summary = v)
          ∧ (∀ v, jsGet parsed "docType" = some v → jsTruthy v = true →
              res.docType = v)
          ∧ (∀ v, jsGet parsed "attributes" = some v → jsTruthy v = true →
              res.attributes = v)) := by
  constructor
  · constructor
    · rintro ⟨err, herr⟩
      unfold OpenRouterService.parseAnalysisResponse at herr
      cases hjm : OpenRouterService.jsonMatch content with
      | none =>
        left
        rintro ⟨pre, mid, post, hdec⟩
        obtain ⟨s, hs⟩ := jsonMatch_some_of_decomp content pre mid post hdec
        rw [hs] at hjm
        simp at hjm
      | some s =>
        cases hp : JSON.parse s with
        | none => exact Or.inr ⟨s, rfl, hp⟩
        | some parsed =>
          rw [hjm] at herr
          dsimp only at herr
          rw [hp] at herr
          simp at herr
    · rintro (hno | ⟨s, hs, hp⟩)
      · cases hjm : OpenRouterService.jsonMatch content with
        | none =>
          refine ⟨.noJson, ?_⟩
          unfold OpenRouterService.parseAnalysisResponse
          rw [hjm]
        | some s =>
          exact absurd (jsonMatch_decomp_of_some content s hjm) hno
      · refine ⟨.badJson, ?_⟩
        unfold OpenRouterService.parseAnalysisResponse
        rw [hs]
        dsimp only
        rw [hp]
  · intro s parsed hs hp
    refine ⟨{ summary := jsOr (jsGet parsed "summary") (.str "No summary available")
              docType := jsOr (jsGet parsed "docType") (.str "unknown")
              attributes := jsOr (jsGet parsed "attributes") (.obj []) },
      ?_, ?_, ?_, ?_, ?_, ?_, ?_⟩
    · unfold OpenRouterService.parseAnalysisResponse
      rw [hs]
      dsimp only
      rw [hp]
    · intro h
      show jsOr (jsGet parsed "summary") (.str "No summary available")
        = .str "No summary available"
      rw [h]
      rfl
    · intro h
      show jsOr (jsGet parsed "docType") (.str "unknown") = .str "unknown"
      rw [h]
      rfl
    · intro h
      show jsOr (jsGet parsed "attributes") (.obj []) = .obj []
      rw [h]
      rfl
    · intro v hv htr
      show jsOr (jsGet parsed "summary") (.str "No summary available") = v
      rw [hv]
      simp [jsOr, htr]
    · intro v hv htr
      show jsOr (jsGet parsed "docType") (.str "unknown") = v
      rw [hv]
      simp [jsOr, htr]
    · intro v hv htr
      show jsOr (jsGet parsed "attributes") (.obj []) = v
      rw [hv]
      simp [jsOr, htr]

/-- Witness for C8: a concrete response with noise around a JSON object
that misses the summary and docType fields. -/
theorem C8_witness :
    ∃ res, OpenRouterService.parseAnalysisResponse "noise \x7b\"attributes\":\x7b\"a\":1\x7d\x7d tail"
        = .ok res
      ∧ (jsGet (.obj [("attributes", .obj [("a", .num 1)])]) "summary" = none →
          res.summary = .str "No summary available")
      ∧ (jsGet (.obj [("attributes", .obj [("a", .num 1)])]) "docType" = none →
          res.docType = .str "unknown")
      ∧ (jsGet (.obj [("attributes", .obj [("a", .num 1)])]) "attributes" = none →
          res.attributes = .obj [])
      ∧ (∀ v, jsGet (.obj [("attributes", .obj [("a", .num 1)])]) "summary" = some v →
          jsTruthy v = true → res.summary = v)
      ∧ (∀ v, jsGet (.obj [("attributes", .obj [("a", .num 1)])]) "docType" = some v →
          jsTruthy v = true → res.docType = v)
      ∧ (∀ v, jsGet (.obj [("attributes", .obj [("a", .num 1)])]) "attributes" = some v →
          jsTruthy v = true → res.attributes = v) :=
  (C8_parse_analysis_response "noise \x7b\"attributes\":\x7b\"a\":1\x7d\x7d tail").2
    "\x7b\"attributes\":\x7b\"a\":1\x7d\x7d" (.obj [("attributes", .obj [("a", .num 1)])])
    rfl rfl

/-- C9: `extractText` dispatches on the MIME type — `application/pdf` goes
to the PDF extractor, the DOCX MIME type to the DOCX extractor, and every
other MIME type fails with an unsupported-type error, independently of
the Document Service's own MIME check (the rejection below holds for
every environment and buffer, with no validation having run). -/
theorem C9_extract_dispatch (env : TextEnv) (buffer mimeType : String) :
    (mimeType = "application/pdf" →
      TextExtractionService.extractText env buffer mimeType
        = TextExtractionService.extractTextFromPDF env buffer)
    ∧ (mimeType
        = "application/vnd.openxmlformats-officedocument.wordprocessingml.document" →
      TextExtractionService.extractText env buffer mimeType
        = TextExtractionService.extractTextFromDOCX env buffer)
    ∧ (¬ mimeType = "application/pdf" →
      ¬ mimeType
        = "application/vnd.openxmlformats-officedocument.wordprocessingml.document" →
      TextExtractionService.extractText env buffer mimeType
        = .error (.badRequest "Only PDF and DOCX files are supported")) := by
  refine ⟨?_, ?_, ?_⟩
  · intro h
    unfold TextExtractionService.extractText
    rw [if_pos h]
  · intro h
    unfold TextExtractionService.extractText
    by_cases h1 : mimeType = "application/pdf"
    · rw [h1] at h
      exact absurd h (by decide)
    · rw [if_neg h1, if_pos h]
  · intro h1 h2
    unfold TextExtractionService.extractText
    rw [if_neg h1, if_neg h2]

/-- Witness for C9 at a concrete JPEG MIME type. -/
theorem C9_witness :
    TextExtractionService.extractText
        { pdfRaw := .ok none, docxRaw := .ok none } "BUF" "image/jpeg"
      = .error (.badRequest "Only PDF and DOCX files are supported") :=
  (C9_extract_dispatch { pdfRaw := .ok none, docxRaw := .ok none }
    "BUF" "image/jpeg").2.2 (by decide) (by decide)

/-- C10: when the object-storage write succeeds but text extraction or the
Document creation fails, `uploadDocument` raises the upload-failure error
while the object written to storage remains — no deletion or rollback
happens — and the Document table is unchanged, so the storage backend
holds an object under the generated key with no corresponding Document
row.  The freshness hypothesis reflects that the key embeds a fresh
UUID. -/
theorem C10_orphaned_s3_object (env : UploadEnv) (file : MFile) (st : St)
    (h1 : file.size ≤ 5242880) (h2 : file.mimetype ∈ allowedMimes)
    (hs : env.s3.sendResult = .ok ())
    (hfail : (∃ ex, TextExtractionService.extractText env.text file.buffer
                  file.mimetype = .error ex)
           ∨ (∃ e, env.createResult = .error e))
    (hfresh : ∀ d ∈ st.docs, d.s3Key ≠ DocumentsService.genKey env file) :
    ∃ m, ((DocumentsService.uploadDocument env file st).1
          = .error (.badRequest ("Upload failed: " ++ m)))
      ∧ ((DocumentsService.uploadDocument env file st).2.s3
          = st.s3 ++ [{ key := DocumentsService.genKey env file,
                        body := file.buffer,
                        contentType := file.mimetype }])
      ∧ ((DocumentsService.uploadDocument env file st).2.docs = st.docs)
      ∧ (∃ obj ∈ (DocumentsService.uploadDocument env file st).2.s3,
          obj.key = DocumentsService.genKey env file)
      ∧ (∀ d ∈ (DocumentsService.uploadDocument env file st).2.docs,
          d.s3Key ≠ DocumentsService.genKey env file) := by
  cases hx : TextExtractionService.extractText env.text file.buffer
      file.mimetype with
  | error ex =>
    rw [DocumentsService.upload_run_extractfail env file st ex
      (by omega) h2 hs hx]
    refine ⟨ex.message, rfl, rfl, rfl, ?_, hfresh⟩
    show ∃ obj ∈ st.s3
        ++ [({ key := DocumentsService.genKey env file, body := file.buffer,
               contentType := file.mimetype } : S3Object)],
      obj.key = DocumentsService.genKey env file
    exact ⟨_, List.mem_append.mpr (Or.inr (List.mem_cons_self _ _)), rfl⟩
  | ok text =>
    rcases hfail with ⟨ex, hex⟩ | ⟨e, he⟩
    · rw [hx] at hex
      exact absurd hex (by simp)
    · rw [DocumentsService.upload_run_createfail env file st text e
        (by omega) h2 hs hx he]
      refine ⟨e, rfl, rfl, rfl, ?_, hfresh⟩
      show ∃ obj ∈ st.s3
          ++ [({ key := DocumentsService.genKey env file, body := file.buffer,
                 contentType := file.mimetype } : S3Object)],
        obj.key = DocumentsService.genKey env file
      exact ⟨_, List.mem_append.mpr (Or.inr (List.mem_cons_self _ _)), rfl⟩

/-- Witness for C10: a concrete upload whose database create fails after
the S3 write succeeded. -/
theorem C10_witness :
    ∃ m, ((DocumentsService.uploadDocument wUploadEnvCreateFail wFile ⟨[], []⟩).1
          = .error (.badRequest ("Upload failed: " ++ m)))
      ∧ ((DocumentsService.uploadDocument wUploadEnvCreateFail wFile ⟨[], []⟩).2.s3
          = ([] : List S3Object)
            ++ [{ key := DocumentsService.genKey wUploadEnvCreateFail wFile,
                  body := wFile.buffer, contentType := wFile.mimetype }])
      ∧ ((DocumentsService.uploadDocument wUploadEnvCreateFail wFile ⟨[], []⟩).2.docs
          = ([] : List Document))
      ∧ (∃ obj ∈ (DocumentsService.uploadDocument wUploadEnvCreateFail wFile ⟨[], []⟩).2.s3,
          obj.key = DocumentsService.genKey wUploadEnvCreateFail wFile)
      ∧ (∀ d ∈ (DocumentsService.uploadDocument wUploadEnvCreateFail wFile ⟨[], []⟩).2.docs,
          d.s3Key ≠ DocumentsService.genKey wUploadEnvCreateFail wFile) :=
  C10_orphaned_s3_object wUploadEnvCreateFail wFile ⟨[], []⟩
    (by decide) (by decide) rfl (Or.inr ⟨"DB down", rfl⟩) (by simp)
